import Mathlib

/-!
# botty: the alerting runtime

A shallow embedding of `internal/usecase/alerting_usecase.go` (condition
evaluator, session, runner registry, bulk starter), of `normalizeComparator`
and `mapOutcomeToAssetID` of `internal/usecase/alert_usecase.go` and of
`decodeMessage` of `internal/infra/polymarket/ws_client.go`, together with the
parts of
`github.com/shopspring/decimal` that the evaluator calls (`NewFromString`,
`Cmp`, `String`).

Conventions of the embedding:

* Go `uint` is `Nat`, Go `int64` is `Int`; no arithmetic is done on either, so
  no wrap-around can occur.
* `*decimal.Decimal` (nullable pointer) is `Option Decimal`.
* A Go `error` is `Err`; `domain.ErrNotFound` is `Err.notFound`.
* External collaborators (store, feed, notifier, completion of a cancelled
  session) are explicit arguments; what the code does to them is recorded as a
  list of events.
-/

set_option autoImplicit false

/-! ## `shopspring/decimal` -/

/-- A decimal number `value * 10 ^ exp` (`big.Int` coefficient, `int32`
exponent in the library; the exponent is not bounded here). -/
structure Decimal where
  value : Int
  exp : Int
  deriving DecidableEq, Repr

namespace Decimal

/-- The library's `rescale`: the same number at exponent `exp`, truncating
toward zero when digits are dropped. -/
def rescale (d : Decimal) (exp : Int) : Decimal :=
  if d.exp = exp then d
  else
    let diff : Nat := (exp - d.exp).natAbs
    let expScale : Int := (10 : Int) ^ diff
    if exp > d.exp then ⟨Int.tdiv d.value expScale, exp⟩
    else ⟨d.value * expScale, exp⟩

/-- The library's `RescalePair`: both numbers at the smaller exponent. -/
def RescalePair (d1 d2 : Decimal) : Decimal × Decimal :=
  if d1.exp < d2.exp then (d1, d2.rescale d1.exp)
  else if d1.exp > d2.exp then (d1.rescale d2.exp, d2)
  else (d1, d2)

/-- The sign of `a - b` as `big.Int.Cmp` reports it. -/
def bigCmp (a b : Int) : Int :=
  if a < b then -1 else if a = b then 0 else 1

/-- The library's `Cmp`: `-1`, `0` or `1`. -/
def Cmp (d d2 : Decimal) : Int :=
  if d.exp = d2.exp then bigCmp d.value d2.value
  else
    let p := RescalePair d d2
    bigCmp p.1.value p.2.value

/-- The rational number a decimal denotes. -/
def toRat (d : Decimal) : ℚ :=
  (d.value : ℚ) * (10 : ℚ) ^ d.exp

end Decimal

/-! ## `internal/domain` -/

/-- Go `domain.PriceChange`. -/
structure PriceChange where
  AssetID : String
  BestBid : Option Decimal
  BestAsk : Option Decimal
  Price : Option Decimal
  deriving DecidableEq, Repr

/-- Go `domain.PriceChangeMessage`. -/
structure PriceChangeMessage where
  EventType : String
  PriceChanges : List PriceChange
  deriving DecidableEq, Repr

/-! ## Condition evaluator -/

/-- Go `selectPrice`. -/
def selectPrice (comparator : String) (change : PriceChange) : Option Decimal :=
  if comparator = "<=" then
    match change.BestAsk with
    | some ask => some ask
    | none =>
      match change.Price with
      | some price => some price
      | none => none
  else
    match change.BestBid with
    | some bid => some bid
    | none =>
      match change.Price with
      | some price => some price
      | none => none

/-- Go `shouldNotify`. -/
def shouldNotify (comparator : String) (price threshold : Decimal) : Bool :=
  let cmp := price.Cmp threshold
  if comparator = "<=" then decide (cmp ≤ 0) else decide (cmp ≥ 0)

/-! ## `shopspring/decimal`: parsing and printing -/

/-- Decimal digits of a string, most significant first, accumulated into
`acc`; fails on any other character. -/
def parseDigits : List Char → Nat → Option Nat
  | [], acc => some acc
  | c :: cs, acc =>
    if 48 ≤ c.toNat ∧ c.toNat ≤ 57 then parseDigits cs (acc * 10 + (c.toNat - 48))
    else none

/-- The grammar shared by `strconv.ParseInt(s, 10, _)` and
`big.Int.SetString(s, 10)`: an optional sign, then at least one digit. -/
def parseSigned (s : List Char) : Option Int :=
  match s with
  | [] => none
  | c :: rest =>
    if c = '+' then
      (if rest = [] then none else (parseDigits rest 0).map Int.ofNat)
    else if c = '-' then
      (if rest = [] then none else (parseDigits rest 0).map (fun n => -(Int.ofNat n)))
    else (parseDigits s 0).map Int.ofNat

/-- Whether a value fits Go `int32`. -/
def fitsInt32 (v : Int) : Bool :=
  decide (-2147483648 ≤ v ∧ v ≤ 2147483647)

/-- The library's `NewFromString`; `none` stands for a returned error. -/
def NewFromString (value : String) : Option Decimal :=
  let chars := value.data
  -- scientific notation: the text after the first `E`/`e` is the exponent
  let split : Option (List Char × Int) :=
    match chars.findIdx? (fun c => c = 'E' || c = 'e') with
    | none => some (chars, 0)
    | some eIndex =>
      match parseSigned (chars.drop (eIndex + 1)) with
      | none => none
      | some expInt => if fitsInt32 expInt then some (chars.take eIndex, expInt) else none
  match split with
  | none => none
  | some (digits, exp0) =>
    if digits.count '.' > 1 then none
    else
      let parts : List Char × Int :=
        match digits.findIdx? (fun c => c = '.') with
        | none => (digits, exp0)
        | some pIndex =>
          (digits.take pIndex ++ digits.drop (pIndex + 1),
            exp0 - Int.ofNat (digits.drop (pIndex + 1)).length)
      match parseSigned parts.1 with
      | none => none
      | some dValue => if fitsInt32 parts.2 then some ⟨dValue, parts.2⟩ else none

/-- Drops the `0` characters at the end of a digit string. -/
def trimZeros (s : List Char) : List Char :=
  (s.reverse.dropWhile (fun c => c = '0')).reverse

/-- The library's unexported `string(trimTrailingZeros)`. -/
def Decimal.string (d : Decimal) (trimTrailingZeros : Bool) : String :=
  if d.exp ≥ 0 then Int.repr (d.rescale 0).value
  else
    let str : List Char := (Nat.repr d.value.natAbs).data
    let dExpInt : Nat := (-d.exp).toNat
    let intPart : List Char :=
      if str.length > dExpInt then str.take (str.length - dExpInt) else ['0']
    let fractionalPart : List Char :=
      if str.length > dExpInt then str.drop (str.length - dExpInt)
      else List.replicate (dExpInt - str.length) '0' ++ str
    let fractionalPart : List Char :=
      if trimTrailingZeros then trimZeros fractionalPart else fractionalPart
    let number : List Char :=
      if fractionalPart.length > 0 then intPart ++ ['.'] ++ fractionalPart else intPart
    if d.value < 0 then String.mk ('-' :: number) else String.mk number

/-- The library's `String`: fixed-point text with trailing zeros of the
fraction removed. -/
def Decimal.String (d : Decimal) : String :=
  d.string true

/-! ## More of `internal/domain` -/

/-- A Go `error` value, as far as the code tells errors apart:
`domain.ErrNotFound` or anything else. -/
inductive Err where
  | notFound
  | other (msg : String)
  deriving DecidableEq, Repr

/-- Go `domain.User` (timestamps left out: the runtime never reads them). -/
structure User where
  ID : Nat
  TelegramUserID : Int
  Username : String
  deriving DecidableEq, Repr

/-- Go `domain.Alert` (timestamps left out: the runtime never reads them). -/
structure Alert where
  ID : Nat
  UserID : Nat
  MarketSlug : String
  ConditionID : String
  Outcome : String
  AssetID : String
  Comparator : String
  Threshold : String
  Enabled : Bool
  deriving DecidableEq, Repr

/-! ## Session (`runUser`) -/

/-- Go `alertEval`: one evaluation rule of a session. -/
structure alertEval where
  AlertID : Nat
  MarketSlug : String
  Outcome : String
  Comparator : String
  Threshold : Decimal
  deriving DecidableEq, Repr

/-- What a session does to its collaborators, in program order. -/
inductive SessionEvent where
  /-- a logger call, with the message text of the source -/
  | log (msg : String)
  /-- a call of `wsFactory.Connect` -/
  | connect
  /-- a call of `client.Subscribe` with these asset identifiers -/
  | subscribe (assetIDs : List String)
  /-- a call of `client.Receive` -/
  | receive
  /-- a call of `notifier.Notify` -/
  | notify (telegramUserID : Int) (text : String)
  /-- the deferred `client.Close` -/
  | close
  deriving DecidableEq, Repr

/-- What one turn of the receive loop meets. -/
inductive Tick where
  /-- the context is already cancelled at the head of the loop -/
  | done
  /-- the call of `Receive` returns a message, or `nil` with no error -/
  | received (msg : Option PriceChangeMessage)
  /-- the call of `Receive` returns an error -/
  | receiveErr (e : Err)
  deriving DecidableEq, Repr

/-- The collaborators of one session: the outcome of `Connect` and of
`Subscribe`, what the successive turns of the receive loop meet, and the
error (if any) of the `k`-th notifier call. -/
structure SessionEnv where
  connectErr : Option Err
  subscribeErr : Option Err
  ticks : List Tick
  notifyErr : Nat → Option Err

/-- Go `map[string][]alertEval`, keys kept in order of first insertion (Go
leaves the iteration order of a map unspecified). -/
abbrev RuleTable := List (String × List alertEval)

/-- Map lookup `assetAlerts[assetID]` with its `ok` flag. -/
def RuleTable.get (t : RuleTable) (assetID : String) : Option (List alertEval) :=
  t.lookup assetID

/-- The statement `assetAlerts[id] = append(assetAlerts[id], eval)`. -/
def RuleTable.push : RuleTable → String → alertEval → RuleTable
  | [], assetID, eval => [(assetID, [eval])]
  | (k, evals) :: rest, assetID, eval =>
    if k = assetID then (k, evals ++ [eval]) :: rest
    else (k, evals) :: RuleTable.push rest assetID eval

/-- The running state of a session: the events so far and the number of
notifier calls made. -/
structure Session where
  trace : List SessionEvent
  notifyCalls : Nat

/-- Appends one event to a session's trace. -/
def Session.emit (s : Session) (e : SessionEvent) : Session :=
  { s with trace := s.trace ++ [e] }

/-- One turn of the first loop of `runUser` (lines 154-168): parse the
threshold, skip the alert with a warning when it does not parse. -/
def buildStep (acc : RuleTable × List SessionEvent) (alert : Alert) :
    RuleTable × List SessionEvent :=
  match NewFromString alert.Threshold with
  | none => (acc.1, acc.2 ++ [SessionEvent.log "invalid threshold on alert"])
  | some threshold =>
    let eval : alertEval :=
      { AlertID := alert.ID, MarketSlug := alert.MarketSlug, Outcome := alert.Outcome,
        Comparator := alert.Comparator, Threshold := threshold }
    (acc.1.push alert.AssetID eval, acc.2)

/-- The first loop of `runUser`: the rule table and the warnings logged. -/
def buildRules (alerts : List Alert) : RuleTable × List SessionEvent :=
  alerts.foldl buildStep ([], [])

/-- The `fmt.Sprintf` of `runUser`. -/
def alertText (alert : alertEval) (price : Decimal) : String :=
  "Alert #" ++ Nat.repr alert.AlertID ++ " triggered: " ++ alert.MarketSlug ++ " " ++
    alert.Outcome ++ " " ++ alert.Comparator ++ " " ++ alert.Threshold.String ++
    " (price " ++ price.String ++ ")"

/-- The body of the innermost loop of `runUser` (lines 217-236). -/
def evalAlert (env : SessionEnv) (user : User) (change : PriceChange) (s : Session)
    (alert : alertEval) : Session :=
  match selectPrice alert.Comparator change with
  | none => s
  | some price =>
    if shouldNotify alert.Comparator price alert.Threshold then
      let s1 : Session :=
        { trace := s.trace ++ [SessionEvent.notify user.TelegramUserID (alertText alert price)],
          notifyCalls := s.notifyCalls + 1 }
      match env.notifyErr s.notifyCalls with
      | some _ => s1.emit (SessionEvent.log "failed to send alert")
      | none => s1
    else s

/-- The body of the loop over `msg.PriceChanges` (lines 212-237). -/
def evalChange (env : SessionEnv) (user : User) (table : RuleTable) (s : Session)
    (change : PriceChange) : Session :=
  match table.get change.AssetID with
  | none => s
  | some alertsForAsset => alertsForAsset.foldl (evalAlert env user change) s

/-- The loop over `msg.PriceChanges`. -/
def evalMessage (env : SessionEnv) (user : User) (table : RuleTable) (s : Session)
    (msg : PriceChangeMessage) : Session :=
  msg.PriceChanges.foldl (evalChange env user table) s

/-- The receive loop of `runUser` (lines 195-238) run over the given turns.
The flag tells whether `runUser` has returned; with no turn left the session
is still blocked in `Receive`. -/
def receiveLoop (env : SessionEnv) (user : User) (table : RuleTable) :
    List Tick → Session → Session × Bool
  | [], s => (s, false)
  | Tick.done :: _, s => (s, true)
  | Tick.receiveErr _ :: _, s =>
    ((s.emit SessionEvent.receive).emit (SessionEvent.log "websocket receive error"), true)
  | Tick.received none :: rest, s => receiveLoop env user table rest (s.emit SessionEvent.receive)
  | Tick.received (some msg) :: rest, s =>
    if msg.EventType ≠ "price_change" then
      receiveLoop env user table rest (s.emit SessionEvent.receive)
    else
      receiveLoop env user table rest
        (evalMessage env user table (s.emit SessionEvent.receive) msg)

/-- What a session has done, and whether `runUser` has returned. -/
structure SessionResult where
  trace : List SessionEvent
  returned : Bool
  deriving DecidableEq, Repr

/-- Go `AlertingManager.runUser`. The goroutine that closes the client once
the context is cancelled is not part of this sequential run: its effect is
that a blocked `Receive` returns an error. -/
def runUser (env : SessionEnv) (user : User) (alerts : List Alert) : SessionResult :=
  let built := buildRules alerts
  let assetAlerts : RuleTable := built.1
  let assetIDs : List String := assetAlerts.map (fun kv => kv.1)
  if assetIDs.length = 0 then ⟨built.2, true⟩
  else
    match env.connectErr with
    | some _ =>
      ⟨built.2 ++ [SessionEvent.connect, SessionEvent.log "failed to connect websocket"], true⟩
    | none =>
      match env.subscribeErr with
      | some _ =>
        ⟨built.2 ++ [SessionEvent.connect, SessionEvent.subscribe assetIDs,
          SessionEvent.log "failed to subscribe websocket", SessionEvent.close], true⟩
      | none =>
        let r := receiveLoop env user assetAlerts env.ticks
          ⟨built.2 ++ [SessionEvent.connect, SessionEvent.subscribe assetIDs], 0⟩
        ⟨if r.2 then r.1.trace ++ [SessionEvent.close] else r.1.trace, r.2⟩

/-- The notifier calls of a trace: recipient and text, in order. -/
def notifications : List SessionEvent → List (Int × String)
  | [] => []
  | SessionEvent.notify uid text :: rest => (uid, text) :: notifications rest
  | _ :: rest => notifications rest

/-- Go `strings.Contains`: `part` occurs in `text` as a contiguous run. -/
abbrev Contains (text part : String) : Prop :=
  part.data <:+: text.data

/-! ## Runner registry (`AlertingManager`) -/

/-- Go `domain.UserRepository` and `domain.AlertRepository`, read side: what
each query answers at the time of the call. -/
structure Store where
  ListUserIDsWithEnabledAlerts : Except Err (List Nat)
  GetByID : Nat → Except Err User
  GetByTelegramID : Int → Except Err User
  ListEnabledByUser : Nat → Except Err (List Alert)

/-- When the `done` channel of a cancelled runner is closed: within the
grace period of `StopUser`, later than that, or never. -/
inductive Completion where
  | inTime
  | late
  | never
  deriving DecidableEq, Repr

/-- The surroundings of a registry call: the store, and for each runner
(named by its number) when its session completes. -/
structure World where
  store : Store
  completion : Nat → Completion

/-- The grace period of `StopUser`: `5 * time.Second`. -/
def stopGracePeriod : Nat := 5

/-- What the registry does, in program order. -/
inductive RegistryEvent where
  /-- a logger call, with the message text of the source -/
  | log (msg : String)
  /-- a call of `alerts.ListUserIDsWithEnabledAlerts` -/
  | listUserIDs
  /-- a call of `users.GetByID` -/
  | getByID (userID : Nat)
  /-- a call of `users.GetByTelegramID` -/
  | getByTelegramID (telegramUserID : Int)
  /-- entry into `startUser` for this user -/
  | startUser (user : User)
  /-- a call of `alerts.ListEnabledByUser` -/
  | listEnabledByUser (userID : Nat)
  /-- the statement `delete(m.runners, id)` -/
  | delete (telegramUserID : Int)
  /-- a call of the runner's `cancel` -/
  | cancel (runner : Nat)
  /-- a receive from the runner's `done` channel that succeeded -/
  | waitDone (runner : Nat)
  /-- the timer of the given length fired before `done` was closed -/
  | waitTimeout (runner : Nat) (grace : Nat)
  /-- the statement `m.runners[id] = runner` -/
  | publish (telegramUserID : Int) (runner : Nat)
  /-- the `go` statement that runs `runUser` for the runner -/
  | spawn (runner : Nat) (user : User) (alerts : List Alert)
  deriving DecidableEq, Repr

/-- Go `AlertingManager`: the runners table (`map[int64]*userRunner`, a
runner being named by a number), with the number of the next runner to be
allocated and the events so far. -/
structure AlertingManager where
  runners : List (Int × Nat)
  nextRunner : Nat
  trace : List RegistryEvent
  deriving DecidableEq, Repr

namespace AlertingManager

/-- Go `NewAlertingManager`: an empty table. -/
def new : AlertingManager :=
  { runners := [], nextRunner := 0, trace := [] }

/-- Appends one event to the registry's trace. -/
def emit (m : AlertingManager) (e : RegistryEvent) : AlertingManager :=
  { m with trace := m.trace ++ [e] }

/-- Map lookup `m.runners[id]` with its `ok` flag. -/
def get (m : AlertingManager) (telegramUserID : Int) : Option Nat :=
  m.runners.lookup telegramUserID

/-- The critical section of `StopUser` (lines 77-82): look the runner up and,
when there is one, delete the entry. -/
def stopUserLocked (m : AlertingManager) (telegramUserID : Int) :
    Option Nat × AlertingManager :=
  match m.get telegramUserID with
  | none => (none, m)
  | some runner =>
    (some runner,
      { m with
        runners := m.runners.filter (fun kv => kv.1 ≠ telegramUserID)
        trace := m.trace ++ [RegistryEvent.delete telegramUserID] })

/-- The `select` of `StopUser` (lines 89-93): wait for `done` up to the
grace period, warn on timeout. -/
def awaitStopped (w : World) (m : AlertingManager) (runner : Nat) : AlertingManager :=
  match w.completion runner with
  | Completion.inTime => m.emit (RegistryEvent.waitDone runner)
  | _ =>
    (m.emit (RegistryEvent.waitTimeout runner stopGracePeriod)).emit
      (RegistryEvent.log "timeout stopping alerting runner")

/-- Go `AlertingManager.StopUser`. -/
def StopUser (w : World) (m : AlertingManager) (telegramUserID : Int) : AlertingManager :=
  match m.stopUserLocked telegramUserID with
  | (none, m1) => m1
  | (some runner, m1) => awaitStopped w (m1.emit (RegistryEvent.cancel runner)) runner

/-- Lines 119-127 of `startUser`: a runner found registered is cancelled and
waited for without a time limit; `none` when that wait never ends. -/
def stopExisting (w : World) (m : AlertingManager) (telegramUserID : Int) :
    Option AlertingManager :=
  match m.get telegramUserID with
  | none => some m
  | some existing =>
    let m1 := (m.emit (RegistryEvent.log "alerting runner already active")).emit
      (RegistryEvent.cancel existing)
    match w.completion existing with
    | Completion.never => none
    | _ => some (m1.emit (RegistryEvent.waitDone existing))

/-- Lines 129-139 of `startUser`: allocate the runner, write it into the
table, start the session goroutine. -/
def publishRunner (m : AlertingManager) (user : User) (alerts : List Alert) :
    AlertingManager :=
  { runners :=
      (user.TelegramUserID, m.nextRunner) ::
        m.runners.filter (fun kv => kv.1 ≠ user.TelegramUserID)
    nextRunner := m.nextRunner + 1
    trace := m.trace ++ [RegistryEvent.publish user.TelegramUserID m.nextRunner,
      RegistryEvent.spawn m.nextRunner user alerts] }

/-- Go `AlertingManager.startUser`; `none` when the call never returns. -/
def startUser (w : World) (m : AlertingManager) (user : User) : Option AlertingManager :=
  let m0 := (m.emit (RegistryEvent.startUser user)).emit
    (RegistryEvent.listEnabledByUser user.ID)
  match w.store.ListEnabledByUser user.ID with
  | Except.error _ => some (m0.emit (RegistryEvent.log "failed to load alerts"))
  | Except.ok alerts =>
    if alerts.length = 0 then some m0
    else (stopExisting w m0 user.TelegramUserID).map (fun m1 => publishRunner m1 user alerts)

/-- The loop of `StartAll` (lines 50-60). -/
def startAllLoop (w : World) : List Nat → AlertingManager → Option AlertingManager
  | [], m => some m
  | userID :: rest, m =>
    let m0 := m.emit (RegistryEvent.getByID userID)
    match w.store.GetByID userID with
    | Except.error err =>
      if err = Err.notFound then startAllLoop w rest m0
      else startAllLoop w rest (m0.emit (RegistryEvent.log "failed to load user for alerting"))
    | Except.ok user => (startUser w m0 user).bind (startAllLoop w rest)

/-- Go `AlertingManager.StartAll`: the registry afterwards and the returned
error; `none` when the call never returns. -/
def StartAll (w : World) (m : AlertingManager) : Option (AlertingManager × Option Err) :=
  let m0 := m.emit RegistryEvent.listUserIDs
  match w.store.ListUserIDsWithEnabledAlerts with
  | Except.error err => some (m0, some err)
  | Except.ok userIDs => (startAllLoop w userIDs m0).map (fun m1 => (m1, none))

/-- Go `AlertingManager.RestartUser`; `none` when the call never returns. -/
def RestartUser (w : World) (m : AlertingManager) (telegramUserID : Int) :
    Option AlertingManager :=
  let m0 := (StopUser w m telegramUserID).emit (RegistryEvent.getByTelegramID telegramUserID)
  match w.store.GetByTelegramID telegramUserID with
  | Except.error err =>
    if err ≠ Err.notFound then some (m0.emit (RegistryEvent.log "failed to load user for alerting"))
    else some m0
  | Except.ok user => startUser w m0 user

/-- Go `AlertingManager.StopAll`: the keys are snapshotted, then each is
stopped (Go leaves the order of the snapshot unspecified; table order here). -/
def StopAll (w : World) (m : AlertingManager) : AlertingManager :=
  (m.runners.map (fun kv => kv.1)).foldl (StopUser w) m

end AlertingManager

/-- The users for which `startUser` was entered, in order. -/
def startCalls : List RegistryEvent → List User
  | [] => []
  | RegistryEvent.startUser u :: rest => u :: startCalls rest
  | _ :: rest => startCalls rest

/-- The successfully loaded users among the given ids, in order. -/
def loadedUsers (store : Store) (userIDs : List Nat) : List User :=
  userIDs.filterMap (fun id =>
    match store.GetByID id with
    | Except.ok u => some u
    | Except.error _ => none)

/-! ## The scenario of the specification -/

/-- The user of the scenario: internal id 1, external id 42. -/
def scenarioUser : User :=
  ⟨1, 42, "u"⟩

/-- The alert of the scenario: comparator `<=`, threshold `0.23`, asset `A`. -/
def scenarioAlert : Alert :=
  ⟨7, 1, "m", "c", "YES", "A", "<=", "0.23", true⟩

/-- A change for asset `A` that carries only a best-ask, given as text. -/
def scenarioChange (ask : String) : PriceChange :=
  ⟨"A", none, NewFromString ask, none⟩

/-- A feed that connects, subscribes and delivers one price-change message
with one change for asset `A`; the notifier never fails. -/
def scenarioEnv (ask : String) : SessionEnv :=
  ⟨none, none, [Tick.received (some ⟨"price_change", [scenarioChange ask]⟩)], fun _ => none⟩

/-- A store in which every external id belongs to the scenario's user and no
user has an enabled alert. -/
def quietStore : Store :=
  { ListUserIDsWithEnabledAlerts := Except.ok []
    GetByID := fun _ => Except.error Err.notFound
    GetByTelegramID := fun _ => Except.ok scenarioUser
    ListEnabledByUser := fun _ => Except.ok [] }

/-- The quiet store, with sessions that complete only after the grace period. -/
def quietWorld : World :=
  ⟨quietStore, fun _ => Completion.late⟩

/-- A store that lists users 1 and 2 as having enabled alerts, in which the
record of user 1 is gone and user 2 (external id 43) has the scenario's alert. -/
def bulkStore : Store :=
  { ListUserIDsWithEnabledAlerts := Except.ok [1, 2]
    GetByID := fun id => if id = 2 then Except.ok ⟨2, 43, "v"⟩ else Except.error Err.notFound
    GetByTelegramID := fun _ => Except.error Err.notFound
    ListEnabledByUser := fun _ => Except.ok [scenarioAlert] }

/-- The bulk store, with sessions that complete within the grace period. -/
def bulkWorld : World :=
  ⟨bulkStore, fun _ => Completion.inTime⟩

/-- A registry with runner 0 for external id 42 and runner 1 for 43. -/
def busyManager : AlertingManager :=
  ⟨[(42, 0), (43, 1)], 2, []⟩


/-! ## Observations on sessions -/

/-- The `Subscribe` calls of a trace: the asset identifiers of each, in order. -/
def subscriptions : List SessionEvent → List (List String)
  | [] => []
  | SessionEvent.subscribe assetIDs :: rest => assetIDs :: subscriptions rest
  | _ :: rest => subscriptions rest

/-- Whether the turn makes `runUser` return: a cancelled context or a receive
error. -/
def Tick.terminal : Tick → Bool
  | Tick.done => true
  | Tick.receiveErr _ => true
  | Tick.received _ => false

/-- Whether the turn receives something that is not a price-change event: a
`nil` message or a message of another event type. -/
def Tick.ignored : Tick → Bool
  | Tick.received none => true
  | Tick.received (some msg) => decide (msg.EventType ≠ "price_change")
  | _ => false

/-- The rule an alert becomes once its threshold is parsed. -/
def ruleOf (alert : Alert) (threshold : Decimal) : alertEval :=
  { AlertID := alert.ID, MarketSlug := alert.MarketSlug, Outcome := alert.Outcome,
    Comparator := alert.Comparator, Threshold := threshold }

/-- The rules the specification puts under an asset identifier: the alerts
with that asset identifier whose threshold parses, in input order. -/
def rulesFor (alerts : List Alert) (assetID : String) : List alertEval :=
  (alerts.filter (fun a => a.AssetID = assetID)).filterMap
    (fun a => (NewFromString a.Threshold).map (ruleOf a))

/-- The notifier call one rule makes for one change, if any: what the body of
the innermost loop of `runUser` passes to `notifier.Notify`. -/
def alertNotification (user : User) (change : PriceChange) (alert : alertEval) :
    List (Int × String) :=
  match selectPrice alert.Comparator change with
  | none => []
  | some price =>
    if shouldNotify alert.Comparator price alert.Threshold then
      [(user.TelegramUserID, alertText alert price)]
    else []

/-- The notifier calls for one change: those of the rules registered for its
asset identifier, in rule order. -/
def changeNotifications (user : User) (table : RuleTable) (change : PriceChange) :
    List (Int × String) :=
  match table.get change.AssetID with
  | none => []
  | some alertsForAsset =>
    alertsForAsset.foldr (fun alert acc => alertNotification user change alert ++ acc) []

/-- The notifier calls for one price-change message: those of its changes, in
order. -/
def messageNotifications (user : User) (table : RuleTable) (msg : PriceChangeMessage) :
    List (Int × String) :=
  msg.PriceChanges.foldr (fun change acc => changeNotifications user table change ++ acc) []

/-- The notifier calls of the receive loop over the given turns. -/
def loopNotifications (user : User) (table : RuleTable) : List Tick → List (Int × String)
  | [] => []
  | Tick.done :: _ => []
  | Tick.receiveErr _ :: _ => []
  | Tick.received none :: rest => loopNotifications user table rest
  | Tick.received (some msg) :: rest =>
    if msg.EventType ≠ "price_change" then loopNotifications user table rest
    else messageNotifications user table msg ++ loopNotifications user table rest

/-- The events the receive loop can record: `Receive` calls, notifier calls
and log entries. -/
def SessionEvent.inLoop : SessionEvent → Bool
  | SessionEvent.receive => true
  | SessionEvent.notify _ _ => true
  | SessionEvent.log _ => true
  | _ => false

/-- What the table-building loop keeps true: keys occur once and no key holds
an empty rule list. -/
def RuleTable.WellFormed (t : RuleTable) : Prop :=
  (t.map Prod.fst).Nodup ∧ ∀ k l, t.get k = some l → l ≠ []

/-- The turn of the scenario: a price-change message with one change for asset
`A` that carries only a best-ask, given as text. -/
def scenarioTick (ask : String) : Tick :=
  Tick.received (some ⟨"price_change", [scenarioChange ask]⟩)

/-- A feed as in the scenario that delivers the given turns. -/
def scenarioFeed (ticks : List Tick) : SessionEnv :=
  ⟨none, none, ticks, fun _ => none⟩

/-! ## Observations on the registry -/

/-- The runners whose cancellation the trace records, in order. -/
def cancelled : List RegistryEvent → List Nat
  | [] => []
  | RegistryEvent.cancel runner :: rest => runner :: cancelled rest
  | _ :: rest => cancelled rest

/-- The runners whose session the trace records as started for the external
id, in order. -/
def spawnedFor (telegramUserID : Int) : List RegistryEvent → List Nat
  | [] => []
  | RegistryEvent.spawn runner user _ :: rest =>
    if user.TelegramUserID = telegramUserID then runner :: spawnedFor telegramUserID rest
    else spawnedFor telegramUserID rest
  | _ :: rest => spawnedFor telegramUserID rest

/-- The sessions of the external id that have been started and have not had
their cancellation signalled. -/
def liveRunners (trace : List RegistryEvent) (telegramUserID : Int) : List Nat :=
  (spawnedFor telegramUserID trace).filter (fun runner => runner ∉ cancelled trace)

/-- The registry states reached from the empty registry by calls that run one
at a time and return; the store and the sessions may differ from call to
call, and `StopAll` may take its snapshot of the keys in any order. -/
inductive Reachable : AlertingManager → Prop where
  | empty : Reachable AlertingManager.new
  | startAll (w : World) (m m1 : AlertingManager) (err : Option Err) :
    Reachable m → m.StartAll w = some (m1, err) → Reachable m1
  | restartUser (w : World) (m m1 : AlertingManager) (telegramUserID : Int) :
    Reachable m → m.RestartUser w telegramUserID = some m1 → Reachable m1
  | stopUser (w : World) (m : AlertingManager) (telegramUserID : Int) :
    Reachable m → Reachable (m.StopUser w telegramUserID)
  | stopAll (w : World) (m : AlertingManager) (ids : List Int) :
    Reachable m → ids.Perm (m.runners.map Prod.fst) →
    Reachable (ids.foldl (AlertingManager.StopUser w) m)

/-- What the calls keep true of the registry: the live sessions of each user
are the table entry, and runner numbers are fresh. -/
def Consistent (m : AlertingManager) : Prop :=
  (∀ tid, liveRunners m.trace tid = (m.get tid).toList) ∧
  (∀ r ∈ cancelled m.trace, r < m.nextRunner) ∧
  (∀ tid, ∀ r ∈ spawnedFor tid m.trace, r < m.nextRunner) ∧
  (∀ tid1 tid2 r, r ∈ spawnedFor tid1 m.trace → r ∈ spawnedFor tid2 m.trace → tid1 = tid2)

/-! ## Two `RestartUser` calls at once -/

/-- The first part of `RestartUser`, up to the end of the existence check of
`startUser` (lines 65-127): the registry then, and the user and alerts for
which a runner is still to be published, if any; `none` when the call never
gets there. -/
def AlertingManager.restartUserCheck (w : World) (m : AlertingManager)
    (telegramUserID : Int) : Option (AlertingManager × Option (User × List Alert)) :=
  let m0 := (m.StopUser w telegramUserID).emit (RegistryEvent.getByTelegramID telegramUserID)
  match w.store.GetByTelegramID telegramUserID with
  | Except.error err =>
    if err ≠ Err.notFound then
      some (m0.emit (RegistryEvent.log "failed to load user for alerting"), none)
    else some (m0, none)
  | Except.ok user =>
    let m1 := (m0.emit (RegistryEvent.startUser user)).emit
      (RegistryEvent.listEnabledByUser user.ID)
    match w.store.ListEnabledByUser user.ID with
    | Except.error _ => some (m1.emit (RegistryEvent.log "failed to load alerts"), none)
    | Except.ok alerts =>
      if alerts.length = 0 then some (m1, none)
      else (AlertingManager.stopExisting w m1 user.TelegramUserID).map
        (fun m2 => (m2, some (user, alerts)))

/-- The second part of `RestartUser` (lines 129-139 of `startUser`): publish
the runner and start its session, when there is one to publish. -/
def AlertingManager.restartUserPublish (m : AlertingManager) :
    Option (User × List Alert) → AlertingManager
  | none => m
  | some (user, alerts) => m.publishRunner user alerts

/-- Two `RestartUser` calls A and B running at once, scheduled so that A runs
up to the end of its existence check, then B does, then A publishes, then B
publishes. The lock is free at each of these switches. -/
def AlertingManager.racingRestarts (w : World) (m : AlertingManager) (idA idB : Int) :
    Option AlertingManager :=
  (m.restartUserCheck w idA).bind (fun a =>
    (a.1.restartUserCheck w idB).map (fun b =>
      (b.1.restartUserPublish a.2).restartUserPublish b.2))

/-- A store in which every external id belongs to the scenario's user, who has
the scenario's alert enabled. -/
def alertStore : Store :=
  { ListUserIDsWithEnabledAlerts := Except.ok [1]
    GetByID := fun _ => Except.ok scenarioUser
    GetByTelegramID := fun _ => Except.ok scenarioUser
    ListEnabledByUser := fun _ => Except.ok [scenarioAlert] }

/-- The alert store, with sessions that complete within the grace period. -/
def alertWorld : World :=
  ⟨alertStore, fun _ => Completion.inTime⟩

/-- The registry after one `RestartUser 42` in the alert world, from empty. -/
def restartedOnce : AlertingManager :=
  ⟨[(42, 0)], 1,
    [RegistryEvent.getByTelegramID 42, RegistryEvent.startUser scenarioUser,
      RegistryEvent.listEnabledByUser 1, RegistryEvent.publish 42 0,
      RegistryEvent.spawn 0 scenarioUser [scenarioAlert]]⟩

/-- The registry after a second `RestartUser 42` that follows the first. -/
def restartedTwice : AlertingManager :=
  ⟨[(42, 1)], 2,
    restartedOnce.trace ++
      [RegistryEvent.delete 42, RegistryEvent.cancel 0, RegistryEvent.waitDone 0,
        RegistryEvent.getByTelegramID 42, RegistryEvent.startUser scenarioUser,
        RegistryEvent.listEnabledByUser 1, RegistryEvent.publish 42 1,
        RegistryEvent.spawn 1 scenarioUser [scenarioAlert]]⟩

/-- The registry after two `RestartUser 42` calls that ran at once, from
empty. -/
def restartedAtOnce : AlertingManager :=
  ⟨[(42, 1)], 2,
    [RegistryEvent.getByTelegramID 42, RegistryEvent.startUser scenarioUser,
      RegistryEvent.listEnabledByUser 1,
      RegistryEvent.getByTelegramID 42, RegistryEvent.startUser scenarioUser,
      RegistryEvent.listEnabledByUser 1,
      RegistryEvent.publish 42 0, RegistryEvent.spawn 0 scenarioUser [scenarioAlert],
      RegistryEvent.publish 42 1, RegistryEvent.spawn 1 scenarioUser [scenarioAlert]]⟩

/-! ## A start and its session on one time line -/

/-- A moment of a registry call or of a session it has started. -/
inductive Moment where
  | registry (e : RegistryEvent)
  | session (runner : Nat) (e : SessionEvent)
  deriving DecidableEq, Repr

/-- What the sessions started by the given registry events do, each with a
feed that behaves as `env`. -/
def sessionMoments (env : SessionEnv) : List RegistryEvent → List Moment
  | [] => []
  | RegistryEvent.spawn runner user alerts :: rest =>
    (runUser env user alerts).trace.map (Moment.session runner) ++ sessionMoments env rest
  | _ :: rest => sessionMoments env rest

/-- The time line of one `startUser` call and of the session it starts. The
session is the body of the goroutine started by the `go` statement (lines
136-139), the last statement of `startUser`, so everything the session does
comes after everything the call records. -/
def AlertingManager.startUserTimeline (w : World) (env : SessionEnv) (m : AlertingManager)
    (user : User) : Option (List Moment) :=
  (m.startUser w user).map (fun m1 =>
    (m1.trace.drop m.trace.length).map Moment.registry ++
      sessionMoments env (m1.trace.drop m.trace.length))

/-- Whether the list holds an `x` with a `y` somewhere after it. -/
def precedes (x y : Moment) : List Moment → Bool
  | [] => false
  | z :: rest => (decide (z = x) && rest.contains y) || precedes x y rest

/-! ## `internal/usecase/alert_usecase.go` -/

/-- The errors declared in `alert_usecase.go`. -/
inductive UsecaseError where
  | ErrUserNotRegistered
  | ErrInvalidOutcome
  | ErrInvalidComparator
  | ErrInvalidThreshold
  | ErrAlertNotFound
  | ErrEventNotFound
  | ErrMarketNotInEvent
  deriving DecidableEq, Repr

deriving instance DecidableEq for Except

/-- Go `unicode.IsSpace`: the Latin-1 spaces and the `White_Space` table. -/
def isSpace (c : Char) : Bool :=
  let n := c.toNat
  decide ((9 ≤ n ∧ n ≤ 13) ∨ n = 32 ∨ n = 0x85 ∨ n = 0xA0 ∨ n = 0x1680 ∨
    (0x2000 ≤ n ∧ n ≤ 0x200a) ∨ n = 0x2028 ∨ n = 0x2029 ∨ n = 0x202f ∨ n = 0x205f ∨
    n = 0x3000)

/-- Go `strings.TrimSpace`, on text that is valid UTF-8. -/
def TrimSpace (s : String) : String :=
  String.mk ((s.data.dropWhile isSpace).reverse.dropWhile isSpace).reverse

/-- Go `normalizeComparator`; the error case also returns the empty string. -/
def normalizeComparator (input : String) : Except UsecaseError String :=
  let trimmed := TrimSpace input
  if trimmed = "<=" ∨ trimmed = "<" then Except.ok "<="
  else if trimmed = ">=" ∨ trimmed = ">" then Except.ok ">="
  else Except.error UsecaseError.ErrInvalidComparator

/-! ## More of `internal/usecase/alert_usecase.go` -/

/-- Go `domain.MarketInfo`. -/
structure MarketInfo where
  Slug : String
  ConditionID : String
  Outcomes : List String
  ClobTokenIDs : List String
  Question : String
  BestBid : Option Decimal
  BestAsk : Option Decimal
  LastTrade : Option Decimal
  OutcomePrices : List String
  deriving DecidableEq, Repr

/-- Go `strings.ToUpper` on text that is valid UTF-8: every rune is mapped by
`unicode.ToUpper`, whose case tables are taken as the argument `upperRune`. -/
def ToUpper (upperRune : Char → Char) (s : String) : String :=
  String.mk (s.data.map upperRune)

/-- Go `mapOutcomeToAssetID`: the asset identifier and the normalized outcome,
or the message of the error. The index expressions are in range where they
are evaluated, as in the source. -/
def mapOutcomeToAssetID (upperRune : Char → Char) (market : MarketInfo) (outcome : String) :
    Except String (String × String) :=
  let normalized := ToUpper upperRune (TrimSpace outcome)
  if normalized ≠ "YES" ∧ normalized ≠ "NO" then Except.error "invalid outcome"
  else if market.ClobTokenIDs.length < 2 then Except.error "missing token ids"
  else if market.Outcomes.length ≥ 2 ∧
      ToUpper upperRune (market.Outcomes.getD 0 "") = "YES" ∧
      ToUpper upperRune (market.Outcomes.getD 1 "") = "NO" then
    (if normalized = "YES" then Except.ok (market.ClobTokenIDs.getD 0 "", normalized)
     else Except.ok (market.ClobTokenIDs.getD 1 "", normalized))
  else if normalized = "YES" then Except.ok (market.ClobTokenIDs.getD 0 "", normalized)
  else Except.ok (market.ClobTokenIDs.getD 1 "", normalized)

/-- The upper-casing of the ASCII letters, the part of `unicode.ToUpper` that
the examples need. -/
def asciiUpper (c : Char) : Char :=
  if 97 ≤ c.toNat ∧ c.toNat ≤ 122 then Char.ofNat (c.toNat - 32) else c

/-- A market with two tokens whose outcome labels are not `YES`, `NO`. -/
def scenarioMarket : MarketInfo :=
  ⟨"m", "c", ["Up", "Down"], ["tokenUp", "tokenDown"], "q", none, none, none, []⟩

/-! ## `internal/infra/polymarket` -/

/-- Go `NullableDecimal`. -/
structure NullableDecimal where
  Decimal : Decimal
  Valid : Bool
  deriving DecidableEq, Repr

/-- Go `wsPriceChange`. -/
structure wsPriceChange where
  AssetID : String
  BestBid : NullableDecimal
  BestAsk : NullableDecimal
  Price : NullableDecimal
  deriving DecidableEq, Repr

/-- Go `wsMessage`. -/
structure wsMessage where
  EventType : String
  PriceChanges : List wsPriceChange
  deriving DecidableEq, Repr

/-- The assignment `if n.Valid { value := n.Decimal; field = &value }` of
`mapPriceChange`: the pointer is set exactly when the field is valid. -/
def pointerOf (n : NullableDecimal) : Option Decimal :=
  if n.Valid then some n.Decimal else none

/-- The body of the loop of `mapPriceChange` (lines 125-138). -/
def mapChange (change : wsPriceChange) : PriceChange :=
  { AssetID := change.AssetID, BestBid := pointerOf change.BestBid,
    BestAsk := pointerOf change.BestAsk, Price := pointerOf change.Price }

/-- Go `mapPriceChange`. -/
def mapPriceChange (payload : wsMessage) : PriceChangeMessage :=
  { EventType := payload.EventType
    PriceChanges := payload.PriceChanges.foldl (fun acc change => acc ++ [mapChange change]) [] }

/-- The loop of `decodeMessage` over the elements of an array payload (lines
99-105). -/
def decodeArray : List wsMessage → Option PriceChangeMessage
  | [] => none
  | payload :: rest =>
    if payload.EventType ≠ "price_change" then decodeArray rest
    else some (mapPriceChange payload)

/-- The two `json.Unmarshal` calls of `decodeMessage`: what the payload text
decodes to as an array of messages and as one message, `none` on error. -/
structure JSONDecoder where
  array : String → Option (List wsMessage)
  object : String → Option wsMessage

/-- Go `WSClient.decodeMessage` on a payload that is valid UTF-8: the message
(or `nil`), or the message of the error. -/
def decodeMessage (json : JSONDecoder) (data : String) :
    Except String (Option PriceChangeMessage) :=
  let trimmed := TrimSpace data
  if trimmed.data.length = 0 then Except.error "empty message"
  else if trimmed.data.head? = some '[' then
    match json.array trimmed with
    | none => Except.error "decode ws message array"
    | some payloads => Except.ok (decodeArray payloads)
  else
    match json.object trimmed with
    | none => Except.error "decode ws message"
    | some payload =>
      if payload.EventType ≠ "price_change" then Except.ok none
      else Except.ok (some (mapPriceChange payload))

/-! ## A session that ends on its own -/

/-- The goroutine started by `startUser` (lines 136-139): it runs the session
and, when the session returns, closes `done`. `runUser` reads the feed
factory, the notifier and the logger of the manager and never its runners
table, so the registry comes out as it went in. -/
def AlertingManager.runSession (m : AlertingManager) (env : SessionEnv) (user : User)
    (alerts : List Alert) : AlertingManager × SessionResult :=
  (m, runUser env user alerts)

/-- A valid decimal field of a payload. -/
def validDecimal (value : Int) (exp : Int) : NullableDecimal :=
  ⟨⟨value, exp⟩, true⟩

/-- An absent decimal field of a payload. -/
def absentDecimal : NullableDecimal :=
  ⟨⟨0, 0⟩, false⟩

/-- An array payload of three elements: a `book` event, a price change for
`A` and a price change for `B`. -/
def scenarioPayloads : List wsMessage :=
  [⟨"book", []⟩,
    ⟨"price_change", [⟨"A", absentDecimal, validDecimal 20 (-2), absentDecimal⟩]⟩,
    ⟨"price_change", [⟨"B", validDecimal 5 (-1), absentDecimal, absentDecimal⟩]⟩]

/-- A decoder that reads every text as the scenario's array payload. -/
def scenarioDecoder : JSONDecoder :=
  ⟨fun _ => some scenarioPayloads, fun _ => none⟩

/-- The registry after `startUser` for the scenario's user in the alert world,
from empty. -/
def startedOnce : AlertingManager :=
  ⟨[(42, 0)], 1,
    [RegistryEvent.startUser scenarioUser, RegistryEvent.listEnabledByUser 1,
      RegistryEvent.publish 42 0, RegistryEvent.spawn 0 scenarioUser [scenarioAlert]]⟩

/-- A feed whose connection fails. -/
def failingFeed : SessionEnv :=
  ⟨some (Err.other "dial"), none, [], fun _ => none⟩

/-! ## Theorems: decimal comparison -/

theorem Decimal.bigCmp_nonpos (a b : Int) : Decimal.bigCmp a b ≤ 0 ↔ a ≤ b := by
  unfold Decimal.bigCmp
  split_ifs with h1 h2
  · simp; omega
  · simp; omega
  · simp; omega

theorem Decimal.bigCmp_nonneg (a b : Int) : Decimal.bigCmp a b ≥ 0 ↔ b ≤ a := by
  unfold Decimal.bigCmp
  split_ifs with h1 h2
  · simp; omega
  · simp; omega
  · simp; omega

theorem Decimal.toRat_le_of_same_exp (a b e : Int) :
    (Decimal.mk a e).toRat ≤ (Decimal.mk b e).toRat ↔ a ≤ b := by
  unfold Decimal.toRat
  have h : (0 : ℚ) < (10 : ℚ) ^ e := by positivity
  simp only
  rw [mul_le_mul_right h]
  exact Int.cast_le

theorem Decimal.toRat_scaled (v e e2 : Int) (h : e < e2) :
    (Decimal.mk (v * (10 : Int) ^ (e - e2).natAbs) e).toRat = (Decimal.mk v e2).toRat := by
  unfold Decimal.toRat
  simp only
  obtain ⟨k, hk⟩ : ∃ k : Nat, e2 = e + k := ⟨(e2 - e).toNat, by omega⟩
  subst hk
  have : (e - (e + (k : Int))).natAbs = k := by omega
  rw [this]
  push_cast
  rw [zpow_add₀ (by norm_num : (10 : ℚ) ≠ 0)]
  rw [zpow_natCast]
  ring

/-- The library's `Cmp` orders decimals as the rational numbers they denote. -/
theorem Decimal.Cmp_toRat (d d2 : Decimal) :
    (d.Cmp d2 ≤ 0 ↔ d.toRat ≤ d2.toRat) ∧ (d.Cmp d2 ≥ 0 ↔ d2.toRat ≤ d.toRat) := by
  obtain ⟨a, e⟩ := d
  obtain ⟨b, e2⟩ := d2
  unfold Decimal.Cmp
  simp only
  by_cases h : e = e2
  · subst h
    simp [Decimal.bigCmp_nonpos, Decimal.bigCmp_nonneg, Decimal.toRat_le_of_same_exp]
  · rw [if_neg h]
    unfold Decimal.RescalePair
    simp only
    by_cases h1 : e < e2
    · rw [if_pos h1]
      have hr : (Decimal.mk b e2).rescale e = ⟨b * (10 : Int) ^ (e - e2).natAbs, e⟩ := by
        unfold Decimal.rescale
        simp only
        rw [if_neg (Ne.symm h), if_neg (by omega)]
      rw [hr]
      simp only [Decimal.bigCmp_nonpos, Decimal.bigCmp_nonneg]
      rw [← Decimal.toRat_scaled b e e2 h1, Decimal.toRat_le_of_same_exp,
        Decimal.toRat_le_of_same_exp]
      exact ⟨Iff.rfl, Iff.rfl⟩
    · have h2 : e2 < e := by omega
      rw [if_neg h1, if_pos h2]
      have hr : (Decimal.mk a e).rescale e2 = ⟨a * (10 : Int) ^ (e2 - e).natAbs, e2⟩ := by
        unfold Decimal.rescale
        simp only
        rw [if_neg h, if_neg (by omega)]
      rw [hr]
      simp only [Decimal.bigCmp_nonpos, Decimal.bigCmp_nonneg]
      rw [← Decimal.toRat_scaled a e2 e h2, Decimal.toRat_le_of_same_exp,
        Decimal.toRat_le_of_same_exp]
      exact ⟨Iff.rfl, Iff.rfl⟩

/-! ## Theorems: condition evaluator -/

theorem shouldNotify_le (price threshold : Decimal) :
    shouldNotify "<=" price threshold = true ↔ price.toRat ≤ threshold.toRat := by
  simp [shouldNotify, (Decimal.Cmp_toRat price threshold).1]

theorem shouldNotify_ge (price threshold : Decimal) :
    shouldNotify ">=" price threshold = true ↔ threshold.toRat ≤ price.toRat := by
  have hne : ¬ ((">=" : String) = "<=") := by decide
  simp [shouldNotify, hne, (Decimal.Cmp_toRat price threshold).2]

/-- C1: with comparator `<=`, `shouldNotify` is true exactly when the price is
at most the threshold, and with `>=` exactly when the price is at least the
threshold, equality included on both sides; the comparison is that of the exact
rational values of the two decimals. -/
theorem shouldNotify_iff (price threshold : Decimal) :
    (shouldNotify "<=" price threshold = true ↔ price.toRat ≤ threshold.toRat) ∧
    (shouldNotify ">=" price threshold = true ↔ price.toRat ≥ threshold.toRat) :=
  ⟨shouldNotify_le price threshold, shouldNotify_ge price threshold⟩

/-- C2: with comparator `<=`, `selectPrice` returns the best-ask field whenever
it is present, and with `>=` the best-bid field whenever it is present,
whatever the other two price fields hold. -/
theorem selectPrice_preferred (assetID : String) (p : Decimal) (other last : Option Decimal) :
    selectPrice "<=" ⟨assetID, other, some p, last⟩ = some p ∧
    selectPrice ">=" ⟨assetID, some p, other, last⟩ = some p := by
  have hne : ¬ ((">=" : String) = "<=") := by decide
  constructor
  · simp [selectPrice]
  · simp [selectPrice, hne]

/-- C3: when the preferred field is absent (best-ask for `<=`, best-bid for
`>=`) and the last-trade price is present, `selectPrice` returns the
last-trade price, also when the non-preferred bid/ask field is present. -/
theorem selectPrice_fallback (assetID : String) (p : Decimal) (other : Option Decimal) :
    selectPrice "<=" ⟨assetID, other, none, some p⟩ = some p ∧
    selectPrice ">=" ⟨assetID, none, other, some p⟩ = some p := by
  have hne : ¬ ((">=" : String) = "<=") := by decide
  constructor
  · simp [selectPrice]
  · simp [selectPrice, hne]

/-- C4: `selectPrice` returns no price exactly when the comparator's preferred
field (best-ask for `<=`, best-bid for `>=`) and the last-trade field are both
absent; a rule for which it returns no price leaves the session as it was (no
notifier call, no log entry) and the loop over the rules goes on with the
next one. -/
theorem selectPrice_none_iff_and_skip (change : PriceChange) :
    (selectPrice "<=" change = none ↔ change.BestAsk = none ∧ change.Price = none) ∧
    (selectPrice ">=" change = none ↔ change.BestBid = none ∧ change.Price = none) ∧
    (∀ (env : SessionEnv) (user : User) (s : Session) (alert : alertEval)
        (rest : List alertEval), selectPrice alert.Comparator change = none →
      evalAlert env user change s alert = s ∧
      (alert :: rest).foldl (evalAlert env user change) s =
        rest.foldl (evalAlert env user change) s) := by
  have hne : ¬ ((">=" : String) = "<=") := by decide
  refine ⟨?_, ?_, ?_⟩
  · cases hA : change.BestAsk <;> cases hP : change.Price <;> simp [selectPrice, hA, hP]
  · cases hB : change.BestBid <;> cases hP : change.Price <;> simp [selectPrice, hne, hB, hP]
  · intro env user s alert rest h
    have h1 : evalAlert env user change s alert = s := by
      unfold evalAlert
      rw [h]
    exact ⟨h1, by rw [List.foldl_cons, h1]⟩

/-- A witness of C4: a `<=` rule meets a change that carries only a best-bid. -/
theorem selectPrice_none_iff_and_skip_witness :
    evalAlert ⟨none, none, [], fun _ => none⟩ ⟨1, 42, "u"⟩ ⟨"A", some ⟨5, -1⟩, none, none⟩
        ⟨[], 0⟩ ⟨7, "m", "YES", "<=", ⟨23, -2⟩⟩ = ⟨[], 0⟩ ∧
      ([⟨7, "m", "YES", "<=", ⟨23, -2⟩⟩, ⟨8, "m", "YES", ">=", ⟨23, -2⟩⟩] : List alertEval).foldl
          (evalAlert ⟨none, none, [], fun _ => none⟩ ⟨1, 42, "u"⟩
            ⟨"A", some ⟨5, -1⟩, none, none⟩) ⟨[], 0⟩ =
        ([⟨8, "m", "YES", ">=", ⟨23, -2⟩⟩] : List alertEval).foldl
          (evalAlert ⟨none, none, [], fun _ => none⟩ ⟨1, 42, "u"⟩
            ⟨"A", some ⟨5, -1⟩, none, none⟩) ⟨[], 0⟩ :=
  (selectPrice_none_iff_and_skip ⟨"A", some ⟨5, -1⟩, none, none⟩).2.2
    ⟨none, none, [], fun _ => none⟩ ⟨1, 42, "u"⟩ ⟨[], 0⟩ ⟨7, "m", "YES", "<=", ⟨23, -2⟩⟩
    [⟨8, "m", "YES", ">=", ⟨23, -2⟩⟩] (by decide)

/-! ## Theorems: session -/

theorem Contains_append_left (a b part : String) (h : Contains a part) :
    Contains (a ++ b) part := by
  obtain ⟨s, t, hst⟩ := h
  exact ⟨s, t ++ b.data, by simp [String.data_append, ← hst]⟩

theorem Contains_append_right (a b part : String) (h : Contains b part) :
    Contains (a ++ b) part := by
  obtain ⟨s, t, hst⟩ := h
  exact ⟨a.data ++ s, t, by simp [String.data_append, ← hst]⟩

theorem Contains_self (a : String) : Contains a a :=
  ⟨[], [], by simp⟩

/-- The notification text names the alert id, market, outcome, comparator,
threshold and observed price. -/
theorem alertText_names (alert : alertEval) (price : Decimal) :
    Contains (alertText alert price) (Nat.repr alert.AlertID) ∧
    Contains (alertText alert price) alert.MarketSlug ∧
    Contains (alertText alert price) alert.Outcome ∧
    Contains (alertText alert price) alert.Comparator ∧
    Contains (alertText alert price) alert.Threshold.String ∧
    Contains (alertText alert price) price.String := by
  unfold alertText
  refine ⟨?_, ?_, ?_, ?_, ?_, ?_⟩
  · repeat (first | exact Contains_append_right _ _ _ (Contains_self _)
                   | apply Contains_append_left)
  · repeat (first | exact Contains_append_right _ _ _ (Contains_self _)
                   | apply Contains_append_left)
  · repeat (first | exact Contains_append_right _ _ _ (Contains_self _)
                   | apply Contains_append_left)
  · repeat (first | exact Contains_append_right _ _ _ (Contains_self _)
                   | apply Contains_append_left)
  · repeat (first | exact Contains_append_right _ _ _ (Contains_self _)
                   | apply Contains_append_left)
  · repeat (first | exact Contains_append_right _ _ _ (Contains_self _)
                   | apply Contains_append_left)

theorem notifications_append (a b : List SessionEvent) :
    notifications (a ++ b) = notifications a ++ notifications b := by
  induction a with
  | nil => rfl
  | cons e rest ih => cases e <;> simp [notifications, ih]

theorem buildRules_single (alert : Alert) (threshold : Decimal)
    (h : NewFromString alert.Threshold = some threshold) :
    buildRules [alert] =
      ([(alert.AssetID, [⟨alert.ID, alert.MarketSlug, alert.Outcome, alert.Comparator,
        threshold⟩])], []) := by
  simp [buildRules, buildStep, h, RuleTable.push]

/-- C5 (amended): a session built from one enabled alert (comparator `<=`,
threshold `0.23`, asset A) that receives one price-change message carrying one
change for asset A with best-ask `0.20` calls the notifier exactly once,
addressed to the user's external id. The text contains the alert id and the
threshold `0.23`; the observed price appears as the decimal library prints it,
without trailing zeros of the fraction: `0.2`. In general the text names the
alert id, market, outcome, comparator, threshold and observed price. -/
theorem runUser_notifies_once (env : SessionEnv) (user : User) (alert : Alert)
    (change : PriceChange)
    (hc : alert.Comparator = "<=") (ht : alert.Threshold = "0.23")
    (hA : change.AssetID = alert.AssetID) (hask : change.BestAsk = NewFromString "0.20")
    (hconn : env.connectErr = none) (hsub : env.subscribeErr = none)
    (hticks : env.ticks = [Tick.received (some ⟨"price_change", [change]⟩)]) :
    ∃ text : String,
      notifications (runUser env user [alert]).trace = [(user.TelegramUserID, text)] ∧
      text = "Alert #" ++ Nat.repr alert.ID ++ " triggered: " ++ alert.MarketSlug ++ " " ++
        alert.Outcome ++ " " ++ "<=" ++ " " ++ "0.23" ++ " (price " ++ "0.2" ++ ")" ∧
      Contains text (Nat.repr alert.ID) ∧ Contains text "0.2" ∧ Contains text "0.23" ∧
      (∀ (rule : alertEval) (price : Decimal),
        Contains (alertText rule price) (Nat.repr rule.AlertID) ∧
        Contains (alertText rule price) rule.MarketSlug ∧
        Contains (alertText rule price) rule.Outcome ∧
        Contains (alertText rule price) rule.Comparator ∧
        Contains (alertText rule price) rule.Threshold.String ∧
        Contains (alertText rule price) price.String) := by
  have hT : NewFromString alert.Threshold = some ⟨23, -2⟩ := by rw [ht]; decide
  have hP : change.BestAsk = some ⟨20, -2⟩ := by rw [hask]; decide
  have hS1 : (Decimal.mk 23 (-2)).String = "0.23" := by decide
  have hS2 : (Decimal.mk 20 (-2)).String = "0.2" := by decide
  have hN : shouldNotify "<=" ⟨20, -2⟩ ⟨23, -2⟩ = true := by decide
  have hsel : selectPrice "<=" change = some ⟨20, -2⟩ := by simp [selectPrice, hP]
  have htext : alertText ⟨alert.ID, alert.MarketSlug, alert.Outcome, "<=", ⟨23, -2⟩⟩ ⟨20, -2⟩ =
      "Alert #" ++ Nat.repr alert.ID ++ " triggered: " ++ alert.MarketSlug ++ " " ++
        alert.Outcome ++ " " ++ "<=" ++ " " ++ "0.23" ++ " (price " ++ "0.2" ++ ")" := by
    simp only [alertText, hS1, hS2]
  have hnames := alertText_names ⟨alert.ID, alert.MarketSlug, alert.Outcome, "<=", ⟨23, -2⟩⟩
    ⟨20, -2⟩
  rw [htext] at hnames
  refine ⟨_, ?_, rfl, hnames.1, ?_, ?_, alertText_names⟩
  · unfold runUser
    rw [buildRules_single alert _ hT, hc]
    simp only [List.map, List.length_cons, List.length_nil, hconn, hsub, hticks]
    simp only [receiveLoop, evalMessage, evalChange, RuleTable.get, hA, List.foldl, Session.emit,
      List.lookup, beq_self_eq_true, evalAlert, hsel, hN]
    cases hne : env.notifyErr 0 <;>
      simp [notifications_append, notifications, Session.emit, htext]
  · have h6 := hnames.2.2.2.2.2
    simpa using h6
  · have h5 := hnames.2.2.2.2.1
    simpa using h5

/-- The counterexample of C5 as stated: in the scenario (alert 7, market `m`,
outcome `YES`, comparator `<=`, threshold `0.23`, asset `A`; best-ask `0.20`)
the one notification reads `... (price 0.2)` and does not contain `0.20`. -/
theorem runUser_text_lacks_trailing_zero :
    notifications (runUser (scenarioEnv "0.20") scenarioUser [scenarioAlert]).trace =
        [(42, "Alert #7 triggered: m YES <= 0.23 (price 0.2)")] ∧
      ¬ Contains "Alert #7 triggered: m YES <= 0.23 (price 0.2)" "0.20" := by
  decide

/-- A witness of C5 (amended): the scenario of the specification. -/
theorem runUser_notifies_once_witness :
    ∃ text : String,
      notifications (runUser (scenarioEnv "0.20") scenarioUser [scenarioAlert]).trace =
        [(scenarioUser.TelegramUserID, text)] ∧
      text = "Alert #" ++ Nat.repr scenarioAlert.ID ++ " triggered: " ++
        scenarioAlert.MarketSlug ++ " " ++ scenarioAlert.Outcome ++ " " ++ "<=" ++ " " ++
        "0.23" ++ " (price " ++ "0.2" ++ ")" ∧
      Contains text (Nat.repr scenarioAlert.ID) ∧ Contains text "0.2" ∧ Contains text "0.23" ∧
      (∀ (rule : alertEval) (price : Decimal),
        Contains (alertText rule price) (Nat.repr rule.AlertID) ∧
        Contains (alertText rule price) rule.MarketSlug ∧
        Contains (alertText rule price) rule.Outcome ∧
        Contains (alertText rule price) rule.Comparator ∧
        Contains (alertText rule price) rule.Threshold.String ∧
        Contains (alertText rule price) price.String) :=
  runUser_notifies_once (scenarioEnv "0.20") scenarioUser scenarioAlert (scenarioChange "0.20")
    rfl rfl rfl rfl rfl rfl rfl

theorem evalAlert_quiet (env : SessionEnv) (user : User) (change : PriceChange) (s : Session)
    (rule : alertEval) (ask : Decimal) (hc : rule.Comparator = "<=")
    (hask : change.BestAsk = some ask) (hlt : rule.Threshold.toRat < ask.toRat) :
    evalAlert env user change s rule = s := by
  have hsel : selectPrice "<=" change = some ask := by simp [selectPrice, hask]
  have hno : shouldNotify "<=" ask rule.Threshold = false := by
    have h := (shouldNotify_le ask rule.Threshold).not
    simp only [Bool.not_eq_true] at h
    exact h.2 (not_le.2 hlt)
  unfold evalAlert
  rw [hc, hsel]
  simp [hno]

theorem evalChanges_quiet (env : SessionEnv) (user : User) (assetID : String) (rule : alertEval)
    (hc : rule.Comparator = "<=") (changes : List PriceChange) (s : Session)
    (h : ∀ change ∈ changes, change.AssetID = assetID →
      ∃ ask, change.BestAsk = some ask ∧ rule.Threshold.toRat < ask.toRat) :
    changes.foldl (evalChange env user [(assetID, [rule])]) s = s := by
  induction changes generalizing s with
  | nil => rfl
  | cons change rest ih =>
    have hstep : evalChange env user [(assetID, [rule])] s change = s := by
      unfold evalChange RuleTable.get
      by_cases hA : change.AssetID = assetID
      · obtain ⟨ask, hask, hlt⟩ := h change (List.mem_cons_self _ _) hA
        simp [List.lookup, hA, evalAlert_quiet env user change s rule ask hc hask hlt]
      · have hb : (change.AssetID == assetID) = false := by simpa using hA
        simp [List.lookup, hb]
    rw [List.foldl_cons, hstep]
    exact ih s (fun c hc' => h c (List.mem_cons_of_mem _ hc'))

theorem receiveLoop_quiet (env : SessionEnv) (user : User) (assetID : String) (rule : alertEval)
    (hc : rule.Comparator = "<=") (ticks : List Tick) (s : Session)
    (h : ∀ msg, Tick.received (some msg) ∈ ticks → ∀ change ∈ msg.PriceChanges,
      change.AssetID = assetID →
      ∃ ask, change.BestAsk = some ask ∧ rule.Threshold.toRat < ask.toRat) :
    notifications (receiveLoop env user [(assetID, [rule])] ticks s).1.trace =
      notifications s.trace := by
  induction ticks generalizing s with
  | nil => rfl
  | cons tick rest ih =>
    have hrest : ∀ msg, Tick.received (some msg) ∈ rest → ∀ change ∈ msg.PriceChanges,
        change.AssetID = assetID →
        ∃ ask, change.BestAsk = some ask ∧ rule.Threshold.toRat < ask.toRat :=
      fun msg hm => h msg (List.mem_cons_of_mem _ hm)
    cases tick with
    | done => rfl
    | receiveErr e => simp [receiveLoop, Session.emit, notifications_append, notifications]
    | received msg =>
      cases msg with
      | none =>
        simp only [receiveLoop]
        rw [ih _ hrest]
        simp [Session.emit, notifications_append, notifications]
      | some msg =>
        simp only [receiveLoop]
        split
        · rw [ih _ hrest]
          simp [Session.emit, notifications_append, notifications]
        · rw [ih _ hrest]
          unfold evalMessage
          rw [evalChanges_quiet env user assetID rule hc _ _ (h msg (List.mem_cons_self _ _))]
          simp [Session.emit, notifications_append, notifications]

/-- C6: a session built from one `<=` alert on asset A with threshold T makes
no notifier call when every change for A in the messages it receives has a
best-ask strictly above T; in particular for one price-change message whose
only change for A has such a best-ask. -/
theorem runUser_silent_above_threshold (env : SessionEnv) (user : User) (alert : Alert)
    (threshold : Decimal)
    (hc : alert.Comparator = "<=") (ht : NewFromString alert.Threshold = some threshold)
    (habove : ∀ msg, Tick.received (some msg) ∈ env.ticks → ∀ change ∈ msg.PriceChanges,
      change.AssetID = alert.AssetID →
      ∃ ask, change.BestAsk = some ask ∧ threshold.toRat < ask.toRat) :
    notifications (runUser env user [alert]).trace = [] := by
  unfold runUser
  rw [buildRules_single alert threshold ht]
  simp only [List.map, List.length_cons, List.length_nil]
  rw [if_neg (by decide)]
  cases hconn : env.connectErr with
  | some e => simp [notifications]
  | none =>
    cases hsub : env.subscribeErr with
    | some e => simp [notifications]
    | none =>
      have hq := receiveLoop_quiet env user alert.AssetID
        ⟨alert.ID, alert.MarketSlug, alert.Outcome, alert.Comparator, threshold⟩ hc env.ticks
        ⟨[] ++ [SessionEvent.connect, SessionEvent.subscribe [alert.AssetID]], 0⟩ habove
      simp only
      split
      · rw [notifications_append, hq]
        simp [notifications]
      · rw [hq]
        simp [notifications]

/-- A witness of C6: threshold `0.23`, best-ask `0.30`. -/
theorem runUser_silent_above_threshold_witness :
    notifications (runUser (scenarioEnv "0.30") scenarioUser [scenarioAlert]).trace = [] :=
  runUser_silent_above_threshold (scenarioEnv "0.30") scenarioUser scenarioAlert ⟨23, -2⟩
    rfl (by decide)
    (by
      intro msg hmsg change hchange _
      have hm : msg = ⟨"price_change", [scenarioChange "0.30"]⟩ := by
        simpa [scenarioEnv] using hmsg
      subst hm
      have hch : change = scenarioChange "0.30" := by simpa using hchange
      subst hch
      exact ⟨⟨30, -2⟩, by decide, by norm_num [Decimal.toRat]⟩)

/-! ## Theorems: runner registry -/

theorem lookup_filter_self (l : List (Int × Nat)) (k : Int) :
    (l.filter (fun kv => kv.1 ≠ k)).lookup k = none := by
  induction l with
  | nil => rfl
  | cons kv rest ih =>
    obtain ⟨k1, v⟩ := kv
    rw [List.filter_cons]
    by_cases h : k1 = k
    · rw [if_neg (by simp [h])]
      exact ih
    · rw [if_pos (by simp [h])]
      have hb : (k == k1) = false := by simpa using fun h1 => h h1.symm
      rw [List.lookup_cons, hb]
      exact ih

theorem lookup_filter_other (l : List (Int × Nat)) (k other : Int) (hne : other ≠ k) :
    (l.filter (fun kv => kv.1 ≠ k)).lookup other = l.lookup other := by
  induction l with
  | nil => rfl
  | cons kv rest ih =>
    obtain ⟨k1, v⟩ := kv
    rw [List.filter_cons]
    by_cases h : k1 = k
    · rw [if_neg (by simp [h])]
      have hb : (other == k1) = false := by simpa [h] using hne
      rw [List.lookup_cons, hb]
      exact ih
    · rw [if_pos (by simp [h])]
      rw [List.lookup_cons, List.lookup_cons, ih]

theorem startCalls_append (a b : List RegistryEvent) :
    startCalls (a ++ b) = startCalls a ++ startCalls b := by
  induction a with
  | nil => rfl
  | cons e rest ih => cases e <;> simp [startCalls, ih]

theorem awaitStopped_runners (w : World) (m : AlertingManager) (runner : Nat) :
    (AlertingManager.awaitStopped w m runner).runners = m.runners := by
  unfold AlertingManager.awaitStopped
  cases w.completion runner <;> rfl

theorem awaitStopped_nextRunner (w : World) (m : AlertingManager) (runner : Nat) :
    (AlertingManager.awaitStopped w m runner).nextRunner = m.nextRunner := by
  unfold AlertingManager.awaitStopped
  cases w.completion runner <;> rfl

theorem awaitStopped_trace (w : World) (m : AlertingManager) (runner : Nat) :
    (AlertingManager.awaitStopped w m runner).trace = m.trace ++
      (if w.completion runner = Completion.inTime then [RegistryEvent.waitDone runner]
       else [RegistryEvent.waitTimeout runner 5,
         RegistryEvent.log "timeout stopping alerting runner"]) := by
  unfold AlertingManager.awaitStopped
  cases w.completion runner <;> simp [AlertingManager.emit, stopGracePeriod]

theorem StopUser_of_some (w : World) (m : AlertingManager) (telegramUserID : Int)
    (runner : Nat) (h : m.get telegramUserID = some runner) :
    m.StopUser w telegramUserID =
      AlertingManager.awaitStopped w
        { runners := m.runners.filter (fun kv => kv.1 ≠ telegramUserID)
          nextRunner := m.nextRunner
          trace := m.trace ++ [RegistryEvent.delete telegramUserID] ++
            [RegistryEvent.cancel runner] } runner := by
  simp only [AlertingManager.StopUser, AlertingManager.stopUserLocked, h, AlertingManager.emit]

/-- What `StopUser` leaves behind: no entry for the user, and during the call
the cancellation of the runner that was registered. -/
theorem StopUser_effect (w : World) (m : AlertingManager) (telegramUserID : Int) :
    ∃ added : List RegistryEvent,
      (m.StopUser w telegramUserID).trace = m.trace ++ added ∧
      (m.StopUser w telegramUserID).get telegramUserID = none ∧
      (m.StopUser w telegramUserID).nextRunner = m.nextRunner ∧
      (∀ runner, m.get telegramUserID = some runner → RegistryEvent.cancel runner ∈ added) ∧
      (∀ e ∈ added, ∀ r u a, e ≠ RegistryEvent.spawn r u a) ∧
      (∀ e ∈ added, ∀ k r, e ≠ RegistryEvent.publish k r) := by
  cases h : m.get telegramUserID with
  | none =>
    have hs : m.StopUser w telegramUserID = m := by
      simp only [AlertingManager.StopUser, AlertingManager.stopUserLocked, h]
    rw [hs]
    exact ⟨[], by simp, h, rfl, by simp, by simp, by simp⟩
  | some runner =>
    rw [StopUser_of_some w m telegramUserID runner h]
    refine ⟨[RegistryEvent.delete telegramUserID, RegistryEvent.cancel runner] ++
      (if w.completion runner = Completion.inTime then [RegistryEvent.waitDone runner]
       else [RegistryEvent.waitTimeout runner 5,
         RegistryEvent.log "timeout stopping alerting runner"]), ?_, ?_, ?_, ?_, ?_, ?_⟩
    · rw [awaitStopped_trace]
      simp
    · unfold AlertingManager.get
      rw [awaitStopped_runners]
      exact lookup_filter_self m.runners telegramUserID
    · rw [awaitStopped_nextRunner]
    · intro r hr
      cases hr
      simp
    · intro e he r u a heq
      subst heq
      split_ifs at he <;> simp at he
    · intro e he k r heq
      subst heq
      split_ifs at he <;> simp at he

/-- C7: when the user's enabled-alert list is empty at the time of the call,
`RestartUser` returns, the runners table then has no entry for the user, no
runner was published or session started during the call, and a runner that
was registered for the user before the call has had its cancellation
signalled during the call. -/
theorem RestartUser_without_alerts (w : World) (m : AlertingManager) (telegramUserID : Int)
    (user : User) (hu : w.store.GetByTelegramID telegramUserID = Except.ok user)
    (ha : w.store.ListEnabledByUser user.ID = Except.ok []) :
    ∃ (m1 : AlertingManager) (added : List RegistryEvent),
      m.RestartUser w telegramUserID = some m1 ∧
      m1.trace = m.trace ++ added ∧
      m1.get telegramUserID = none ∧
      (∀ runner, m.get telegramUserID = some runner → RegistryEvent.cancel runner ∈ added) ∧
      (∀ e ∈ added, ∀ r u a, e ≠ RegistryEvent.spawn r u a) ∧
      (∀ e ∈ added, ∀ k r, e ≠ RegistryEvent.publish k r) := by
  obtain ⟨added, htrace, hget, _, hcancel, hspawn, hpub⟩ := StopUser_effect w m telegramUserID
  refine ⟨(((m.StopUser w telegramUserID).emit
      (RegistryEvent.getByTelegramID telegramUserID)).emit (RegistryEvent.startUser user)).emit
      (RegistryEvent.listEnabledByUser user.ID),
    added ++ [RegistryEvent.getByTelegramID telegramUserID,
      RegistryEvent.startUser user, RegistryEvent.listEnabledByUser user.ID],
    ?_, ?_, ?_, ?_, ?_, ?_⟩
  · unfold AlertingManager.RestartUser AlertingManager.startUser
    simp only [hu, ha, List.length_nil, if_true]
  · simp [AlertingManager.emit, htrace]
  · simpa [AlertingManager.emit, AlertingManager.get] using hget
  · intro runner hr
    exact List.mem_append_left _ (hcancel runner hr)
  · intro e he r u a
    rcases List.mem_append.1 he with h | h
    · exact hspawn e h r u a
    · intro heq
      subst heq
      simp at h
  · intro e he k r
    rcases List.mem_append.1 he with h | h
    · exact hpub e h k r
    · intro heq
      subst heq
      simp at h

/-- C8: for a user with no entry in the runners table `StopUser` returns the
registry exactly as it was: the table is unchanged and nothing is recorded,
neither a cancellation nor a wait nor a log entry. -/
theorem StopUser_absent (w : World) (m : AlertingManager) (telegramUserID : Int)
    (h : m.get telegramUserID = none) :
    m.StopUser w telegramUserID = m := by
  unfold AlertingManager.StopUser AlertingManager.stopUserLocked
  rw [h]

/-- C9: when the user has a runner, the critical section of `StopUser` deletes
the user's entry and leaves every other user's entry as it was; the
cancellation and the wait act on the registry after that deletion and do not
touch the table; whether the session confirms completion within the grace
period or the 5-unit timer fires, `StopUser` returns with the user's entry
absent, having recorded the deletion, then the cancellation, then the outcome
of the wait. -/
theorem StopUser_present (w : World) (m : AlertingManager) (telegramUserID : Int)
    (runner : Nat) (h : m.get telegramUserID = some runner) :
    ∃ m1 : AlertingManager,
      m.stopUserLocked telegramUserID = (some runner, m1) ∧
      m1.get telegramUserID = none ∧
      (∀ other, other ≠ telegramUserID → m1.get other = m.get other) ∧
      m1.trace = m.trace ++ [RegistryEvent.delete telegramUserID] ∧
      m.StopUser w telegramUserID =
        AlertingManager.awaitStopped w (m1.emit (RegistryEvent.cancel runner)) runner ∧
      (m.StopUser w telegramUserID).runners = m1.runners ∧
      (m.StopUser w telegramUserID).get telegramUserID = none ∧
      (w.completion runner = Completion.inTime →
        (m.StopUser w telegramUserID).trace = m.trace ++
          [RegistryEvent.delete telegramUserID, RegistryEvent.cancel runner,
            RegistryEvent.waitDone runner]) ∧
      (w.completion runner ≠ Completion.inTime →
        (m.StopUser w telegramUserID).trace = m.trace ++
          [RegistryEvent.delete telegramUserID, RegistryEvent.cancel runner,
            RegistryEvent.waitTimeout runner 5,
            RegistryEvent.log "timeout stopping alerting runner"]) := by
  have hs := StopUser_of_some w m telegramUserID runner h
  refine ⟨{ m with
      runners := m.runners.filter (fun kv => kv.1 ≠ telegramUserID)
      trace := m.trace ++ [RegistryEvent.delete telegramUserID] },
    by simp only [AlertingManager.stopUserLocked, h], ?_, ?_, rfl, ?_, ?_, ?_, ?_, ?_⟩
  · exact lookup_filter_self m.runners telegramUserID
  · intro other hne
    exact lookup_filter_other m.runners telegramUserID other hne
  · simp only [AlertingManager.StopUser, AlertingManager.stopUserLocked, h]
  · rw [hs, awaitStopped_runners]
  · unfold AlertingManager.get
    rw [hs, awaitStopped_runners]
    exact lookup_filter_self m.runners telegramUserID
  · intro hc
    rw [hs, awaitStopped_trace, if_pos hc]
    simp
  · intro hc
    rw [hs, awaitStopped_trace, if_neg hc]
    simp

/-- A witness of C7: the user has a runner and no enabled alert. -/
theorem RestartUser_without_alerts_witness :
    ∃ (m1 : AlertingManager) (added : List RegistryEvent),
      busyManager.RestartUser quietWorld 42 = some m1 ∧
      m1.trace = busyManager.trace ++ added ∧
      m1.get 42 = none ∧
      (∀ runner, busyManager.get 42 = some runner → RegistryEvent.cancel runner ∈ added) ∧
      (∀ e ∈ added, ∀ r u a, e ≠ RegistryEvent.spawn r u a) ∧
      (∀ e ∈ added, ∀ k r, e ≠ RegistryEvent.publish k r) :=
  RestartUser_without_alerts quietWorld busyManager 42 scenarioUser rfl rfl

/-- A witness of C8: the empty registry. -/
theorem StopUser_absent_witness :
    AlertingManager.new.StopUser quietWorld 42 = AlertingManager.new :=
  StopUser_absent quietWorld AlertingManager.new 42 rfl

/-- A witness of C9: runner 0 of external id 42, in a world where the session
does not confirm within the grace period. -/
theorem StopUser_present_witness :
    ∃ m1 : AlertingManager,
      busyManager.stopUserLocked 42 = (some 0, m1) ∧
      m1.get 42 = none ∧
      (∀ other, other ≠ 42 → m1.get other = busyManager.get other) ∧
      m1.trace = busyManager.trace ++ [RegistryEvent.delete 42] ∧
      busyManager.StopUser quietWorld 42 =
        AlertingManager.awaitStopped quietWorld (m1.emit (RegistryEvent.cancel 0)) 0 ∧
      (busyManager.StopUser quietWorld 42).runners = m1.runners ∧
      (busyManager.StopUser quietWorld 42).get 42 = none ∧
      (quietWorld.completion 0 = Completion.inTime →
        (busyManager.StopUser quietWorld 42).trace = busyManager.trace ++
          [RegistryEvent.delete 42, RegistryEvent.cancel 0, RegistryEvent.waitDone 0]) ∧
      (quietWorld.completion 0 ≠ Completion.inTime →
        (busyManager.StopUser quietWorld 42).trace = busyManager.trace ++
          [RegistryEvent.delete 42, RegistryEvent.cancel 0, RegistryEvent.waitTimeout 0 5,
            RegistryEvent.log "timeout stopping alerting runner"]) :=
  StopUser_present quietWorld busyManager 42 0 rfl

theorem stopExisting_returns (w : World) (m : AlertingManager) (telegramUserID : Int)
    (hfin : ∀ runner, w.completion runner ≠ Completion.never) :
    ∃ m1, AlertingManager.stopExisting w m telegramUserID = some m1 ∧
      startCalls m1.trace = startCalls m.trace := by
  unfold AlertingManager.stopExisting
  cases h : m.get telegramUserID with
  | none => exact ⟨m, rfl, rfl⟩
  | some existing =>
    cases hc : w.completion existing with
    | never => exact absurd hc (hfin existing)
    | inTime =>
      exact ⟨((m.emit (RegistryEvent.log "alerting runner already active")).emit
        (RegistryEvent.cancel existing)).emit (RegistryEvent.waitDone existing), by simp only [hc],
        by simp [AlertingManager.emit, startCalls_append, startCalls]⟩
    | late =>
      exact ⟨((m.emit (RegistryEvent.log "alerting runner already active")).emit
        (RegistryEvent.cancel existing)).emit (RegistryEvent.waitDone existing), by simp only [hc],
        by simp [AlertingManager.emit, startCalls_append, startCalls]⟩

theorem startUser_returns (w : World) (m : AlertingManager) (user : User)
    (hfin : ∀ runner, w.completion runner ≠ Completion.never) :
    ∃ m1, m.startUser w user = some m1 ∧
      startCalls m1.trace = startCalls m.trace ++ [user] := by
  unfold AlertingManager.startUser
  cases h : w.store.ListEnabledByUser user.ID with
  | error e => exact ⟨_, rfl, by simp [AlertingManager.emit, startCalls_append, startCalls]⟩
  | ok alerts =>
    simp only
    split
    · exact ⟨_, rfl, by simp [AlertingManager.emit, startCalls_append, startCalls]⟩
    · obtain ⟨m1, h1, h2⟩ := stopExisting_returns w
        ((m.emit (RegistryEvent.startUser user)).emit (RegistryEvent.listEnabledByUser user.ID))
        user.TelegramUserID hfin
      rw [h1]
      refine ⟨_, rfl, ?_⟩
      simp only [AlertingManager.publishRunner, startCalls_append, h2]
      simp [AlertingManager.emit, startCalls_append, startCalls]

theorem startAllLoop_returns (w : World) (hfin : ∀ runner, w.completion runner ≠ Completion.never)
    (userIDs : List Nat) (m : AlertingManager) :
    ∃ m1, AlertingManager.startAllLoop w userIDs m = some m1 ∧
      startCalls m1.trace = startCalls m.trace ++ loadedUsers w.store userIDs := by
  induction userIDs generalizing m with
  | nil => exact ⟨m, rfl, by simp [loadedUsers]⟩
  | cons userID rest ih =>
    unfold AlertingManager.startAllLoop
    cases h : w.store.GetByID userID with
    | error err =>
      have hl : loadedUsers w.store (userID :: rest) = loadedUsers w.store rest := by
        simp [loadedUsers, h]
      simp only
      split
      · obtain ⟨m1, h1, h2⟩ := ih (m.emit (RegistryEvent.getByID userID))
        exact ⟨m1, h1, by rw [h2, hl]; simp [AlertingManager.emit, startCalls_append, startCalls]⟩
      · obtain ⟨m1, h1, h2⟩ := ih ((m.emit (RegistryEvent.getByID userID)).emit
          (RegistryEvent.log "failed to load user for alerting"))
        exact ⟨m1, h1, by rw [h2, hl]; simp [AlertingManager.emit, startCalls_append, startCalls]⟩
    | ok user =>
      have hl : loadedUsers w.store (userID :: rest) = user :: loadedUsers w.store rest := by
        simp [loadedUsers, h]
      obtain ⟨m1, h1, h2⟩ := startUser_returns w (m.emit (RegistryEvent.getByID userID)) user hfin
      obtain ⟨m2, h3, h4⟩ := ih m1
      refine ⟨m2, ?_, ?_⟩
      · simp only [h1, Option.bind]
        exact h3
      · rw [h4, h2, hl]
        simp [AlertingManager.emit, startCalls_append, startCalls]

/-- C10: `StartAll` over a successful listing, in a world where no cancelled
session hangs forever (so that every per-user start returns), returns no error
and has entered the per-user start path for exactly the listed ids whose user
record loads, in list order, whatever error the other loads fail with; it
returns an error only when the listing query fails, and then that error. -/
theorem StartAll_skips_failed_loads (w : World) (m : AlertingManager) :
    (∀ userIDs, w.store.ListUserIDsWithEnabledAlerts = Except.ok userIDs →
      (∀ runner, w.completion runner ≠ Completion.never) →
      ∃ m1, m.StartAll w = some (m1, none) ∧
        startCalls m1.trace = startCalls m.trace ++ loadedUsers w.store userIDs) ∧
    (∀ err, w.store.ListUserIDsWithEnabledAlerts = Except.error err →
      m.StartAll w = some (m.emit RegistryEvent.listUserIDs, some err)) ∧
    (∀ m1 err, m.StartAll w = some (m1, some err) →
      w.store.ListUserIDsWithEnabledAlerts = Except.error err) := by
  refine ⟨?_, ?_, ?_⟩
  · intro userIDs hl hfin
    obtain ⟨m1, h1, h2⟩ := startAllLoop_returns w hfin userIDs (m.emit RegistryEvent.listUserIDs)
    refine ⟨m1, ?_, ?_⟩
    · simp [AlertingManager.StartAll, hl, h1]
    · rw [h2]
      simp [AlertingManager.emit, startCalls_append, startCalls]
  · intro err hl
    simp [AlertingManager.StartAll, hl]
  · intro m1 err hs
    unfold AlertingManager.StartAll at hs
    cases hl : w.store.ListUserIDsWithEnabledAlerts with
    | error e =>
      rw [hl] at hs
      simp only [Option.some.injEq, Prod.mk.injEq] at hs
      rw [hs.2]
    | ok userIDs =>
      rw [hl] at hs
      simp at hs

/-- A witness of C10: users 1 and 2 are listed, the record of user 1 is gone;
the start path runs for user 2 alone. -/
theorem StartAll_skips_failed_loads_witness :
    ∃ m1, AlertingManager.new.StartAll bulkWorld = some (m1, none) ∧
      startCalls m1.trace = [⟨2, 43, "v"⟩] :=
  (StartAll_skips_failed_loads bulkWorld AlertingManager.new).1 [1, 2] rfl
    (fun _ => (by decide : Completion.inTime ≠ Completion.never))

/-! ## Theorems: the session loop -/

theorem evalAlert_notifications (env : SessionEnv) (user : User) (change : PriceChange)
    (s : Session) (alert : alertEval) :
    notifications (evalAlert env user change s alert).trace =
      notifications s.trace ++ alertNotification user change alert := by
  unfold evalAlert alertNotification
  cases selectPrice alert.Comparator change with
  | none => simp
  | some price =>
    simp only
    split
    · cases env.notifyErr s.notifyCalls <;>
        simp [Session.emit, notifications_append, notifications]
    · simp

theorem evalAlerts_notifications (env : SessionEnv) (user : User) (change : PriceChange)
    (rules : List alertEval) (s : Session) :
    notifications (rules.foldl (evalAlert env user change) s).trace =
      notifications s.trace ++
        rules.foldr (fun alert acc => alertNotification user change alert ++ acc) [] := by
  induction rules generalizing s with
  | nil => simp
  | cons alert rest ih =>
    rw [List.foldl_cons, ih, evalAlert_notifications, List.foldr_cons, List.append_assoc]

theorem evalChange_notifications (env : SessionEnv) (user : User) (table : RuleTable)
    (s : Session) (change : PriceChange) :
    notifications (evalChange env user table s change).trace =
      notifications s.trace ++ changeNotifications user table change := by
  unfold evalChange changeNotifications
  cases table.get change.AssetID with
  | none => simp
  | some rules => exact evalAlerts_notifications env user change rules s

theorem evalMessage_notifications (env : SessionEnv) (user : User) (table : RuleTable)
    (s : Session) (msg : PriceChangeMessage) :
    notifications (evalMessage env user table s msg).trace =
      notifications s.trace ++ messageNotifications user table msg := by
  unfold evalMessage messageNotifications
  generalize msg.PriceChanges = changes
  induction changes generalizing s with
  | nil => simp
  | cons change rest ih =>
    rw [List.foldl_cons, ih, evalChange_notifications, List.foldr_cons, List.append_assoc]

theorem receiveLoop_notifications (env : SessionEnv) (user : User) (table : RuleTable)
    (ticks : List Tick) (s : Session) :
    notifications (receiveLoop env user table ticks s).1.trace =
      notifications s.trace ++ loopNotifications user table ticks := by
  induction ticks generalizing s with
  | nil => simp [receiveLoop, loopNotifications]
  | cons tick rest ih =>
    cases tick with
    | done => simp [receiveLoop, loopNotifications]
    | receiveErr e =>
      simp [receiveLoop, loopNotifications, Session.emit, notifications_append, notifications]
    | received msg =>
      cases msg with
      | none =>
        simp only [receiveLoop, loopNotifications]
        rw [ih]
        simp [Session.emit, notifications_append, notifications]
      | some msg =>
        simp only [receiveLoop, loopNotifications]
        split
        · rw [ih]
          simp [Session.emit, notifications_append, notifications]
        · rw [ih, evalMessage_notifications]
          simp [Session.emit, notifications_append, notifications]

/-- Whether the receive loop returns depends on the turns alone. -/
theorem receiveLoop_returned (env : SessionEnv) (user : User) (table : RuleTable)
    (ticks : List Tick) (s : Session) :
    (receiveLoop env user table ticks s).2 = ticks.any Tick.terminal := by
  induction ticks generalizing s with
  | nil => rfl
  | cons tick rest ih =>
    cases tick with
    | done => simp [receiveLoop, Tick.terminal]
    | receiveErr e => simp [receiveLoop, Tick.terminal]
    | received msg =>
      cases msg with
      | none =>
        simp only [receiveLoop]
        rw [ih]
        simp [Tick.terminal]
      | some msg =>
        simp only [receiveLoop]
        split
        · rw [ih]
          simp [Tick.terminal]
        · rw [ih]
          simp [Tick.terminal]


/-! ## Theorems: the rule table -/

theorem RuleTable.get_push (t : RuleTable) (k : String) (e : alertEval) (k1 : String) :
    (t.push k e).get k1 =
      if k1 = k then some ((t.get k).getD [] ++ [e]) else t.get k1 := by
  induction t with
  | nil =>
    by_cases h : k1 = k
    · simp [RuleTable.push, RuleTable.get, List.lookup, h]
    · have hb : (k1 == k) = false := by simpa using h
      simp [RuleTable.push, RuleTable.get, List.lookup, h, hb]
  | cons kv rest ih =>
    obtain ⟨k0, evals⟩ := kv
    unfold RuleTable.get at ih ⊢
    by_cases h0 : k0 = k
    · subst h0
      by_cases h : k1 = k0
      · subst h
        simp [RuleTable.push, List.lookup]
      · have hb : (k1 == k0) = false := by simpa using h
        simp [RuleTable.push, List.lookup, h, hb]
    · by_cases h : k1 = k
      · subst h
        have hb : (k1 == k0) = false := by simpa using fun h1 => h0 h1.symm
        simp only [RuleTable.push, if_neg h0, List.lookup_cons, hb, ih, if_true]
      · by_cases h1 : k1 = k0
        · subst h1
          simp [RuleTable.push, h0, List.lookup, h]
        · have hb : (k1 == k0) = false := by simpa using h1
          simp only [RuleTable.push, if_neg h0, List.lookup_cons, hb, ih, if_neg h]

theorem RuleTable.keys_push (t : RuleTable) (k : String) (e : alertEval) :
    (t.push k e).map Prod.fst =
      if k ∈ t.map Prod.fst then t.map Prod.fst else t.map Prod.fst ++ [k] := by
  induction t with
  | nil => simp [RuleTable.push]
  | cons kv rest ih =>
    obtain ⟨k0, evals⟩ := kv
    by_cases h0 : k0 = k
    · subst h0
      simp [RuleTable.push]
    · have h0s : ¬ k = k0 := fun h => h0 h.symm
      simp only [RuleTable.push, if_neg h0, List.map_cons, ih, List.mem_cons, h0s, false_or]
      split <;> simp

theorem RuleTable.mem_keys_iff (t : RuleTable) (k : String) :
    k ∈ t.map Prod.fst ↔ (t.get k).isSome = true := by
  induction t with
  | nil => simp [RuleTable.get]
  | cons kv rest ih =>
    obtain ⟨k0, evals⟩ := kv
    unfold RuleTable.get at ih ⊢
    by_cases h : k = k0
    · subst h
      simp [List.lookup]
    · have hb : (k == k0) = false := by simpa using h
      simp only [List.map_cons, List.mem_cons, h, false_or, List.lookup_cons, hb, ih]

theorem RuleTable.wellFormed_push (t : RuleTable) (k : String) (e : alertEval)
    (h : t.WellFormed) : (t.push k e).WellFormed := by
  constructor
  · rw [RuleTable.keys_push]
    split
    · exact h.1
    · rename_i hk
      exact List.Nodup.append h.1 (List.nodup_singleton k) (by simpa using hk)
  · intro k1 l hl
    rw [RuleTable.get_push] at hl
    split at hl
    · cases hl
      simp
    · exact h.2 k1 l hl

theorem rulesFor_cons (alert : Alert) (rest : List Alert) (k : String) :
    rulesFor (alert :: rest) k =
      (if alert.AssetID = k then
        (match NewFromString alert.Threshold with
          | some threshold => [ruleOf alert threshold]
          | none => [])
       else []) ++ rulesFor rest k := by
  unfold rulesFor
  by_cases h : alert.AssetID = k
  · cases hp : NewFromString alert.Threshold <;> simp [List.filter, h, hp]
  · simp [List.filter, h]

theorem buildRules_fold (alerts : List Alert) (t : RuleTable) (logs : List SessionEvent)
    (h : t.WellFormed) :
    RuleTable.WellFormed (alerts.foldl buildStep (t, logs)).1 ∧
    (∀ k, ((alerts.foldl buildStep (t, logs)).1.get k).getD [] =
      (t.get k).getD [] ++ rulesFor alerts k) ∧
    (alerts.foldl buildStep (t, logs)).2 = logs ++
      (alerts.filter (fun a => (NewFromString a.Threshold).isNone)).map
        (fun _ => SessionEvent.log "invalid threshold on alert") := by
  induction alerts generalizing t logs with
  | nil => exact ⟨h, by simp [rulesFor], by simp⟩
  | cons alert rest ih =>
    rw [List.foldl_cons]
    cases hp : NewFromString alert.Threshold with
    | none =>
      have hs : buildStep (t, logs) alert =
          (t, logs ++ [SessionEvent.log "invalid threshold on alert"]) := by
        simp [buildStep, hp]
      rw [hs]
      obtain ⟨h1, h2, h3⟩ := ih t (logs ++ [SessionEvent.log "invalid threshold on alert"]) h
      refine ⟨h1, ?_, ?_⟩
      · intro k
        rw [h2 k, rulesFor_cons, hp]
        simp
      · rw [h3]
        simp [List.filter, hp]
    | some threshold =>
      have hs : buildStep (t, logs) alert =
          (t.push alert.AssetID (ruleOf alert threshold), logs) := by
        simp [buildStep, hp, ruleOf]
      rw [hs]
      obtain ⟨h1, h2, h3⟩ := ih (t.push alert.AssetID (ruleOf alert threshold)) logs
        (RuleTable.wellFormed_push t _ _ h)
      refine ⟨h1, ?_, ?_⟩
      · intro k
        rw [h2 k, rulesFor_cons, hp, RuleTable.get_push]
        by_cases hk : k = alert.AssetID
        · subst hk
          simp
        · have hk2 : ¬ alert.AssetID = k := fun h => hk h.symm
          simp [hk, hk2]
      · rw [h3]
        simp [List.filter, hp]

theorem buildRules_table (alerts : List Alert) :
    RuleTable.WellFormed (buildRules alerts).1 ∧
    (∀ k, (buildRules alerts).1.get k =
      if rulesFor alerts k = [] then none else some (rulesFor alerts k)) ∧
    (buildRules alerts).2 =
      (alerts.filter (fun a => (NewFromString a.Threshold).isNone)).map
        (fun _ => SessionEvent.log "invalid threshold on alert") := by
  have hwf : RuleTable.WellFormed [] := ⟨by simp, by simp [RuleTable.get]⟩
  obtain ⟨h1, h2, h3⟩ := buildRules_fold alerts [] [] hwf
  refine ⟨h1, ?_, by simpa using h3⟩
  intro k
  have h2k := h2 k
  simp only [RuleTable.get, List.lookup, Option.getD_none, List.nil_append] at h2k
  unfold buildRules
  cases hg : (List.foldl buildStep ([], []) alerts).1.get k with
  | none =>
    unfold RuleTable.get at hg
    rw [hg] at h2k
    simp only [Option.getD_none] at h2k
    rw [← h2k]
    simp
  | some l =>
    have hne := h1.2 k l hg
    unfold RuleTable.get at hg
    rw [hg] at h2k
    simp only [Option.getD_some] at h2k
    rw [← h2k, if_neg hne]

theorem notifications_logs (l : List Alert) :
    notifications (l.map (fun _ => SessionEvent.log "invalid threshold on alert")) = [] := by
  induction l with
  | nil => rfl
  | cons a rest ih => simpa [notifications] using ih

theorem subscriptions_append (a b : List SessionEvent) :
    subscriptions (a ++ b) = subscriptions a ++ subscriptions b := by
  induction a with
  | nil => rfl
  | cons e rest ih => cases e <;> simp [subscriptions, ih]

theorem subscriptions_logs (l : List Alert) :
    subscriptions (l.map (fun _ => SessionEvent.log "invalid threshold on alert")) = [] := by
  induction l with
  | nil => rfl
  | cons a rest ih => simpa [subscriptions] using ih

/-! ## Theorems: the shape of a session -/

theorem evalAlert_inLoop (env : SessionEnv) (user : User) (change : PriceChange) (s : Session)
    (alert : alertEval) :
    ∃ added, (evalAlert env user change s alert).trace = s.trace ++ added ∧
      ∀ e ∈ added, e.inLoop = true := by
  unfold evalAlert
  cases selectPrice alert.Comparator change with
  | none => exact ⟨[], by simp, by simp⟩
  | some price =>
    simp only
    split
    · cases env.notifyErr s.notifyCalls with
      | none => exact ⟨[SessionEvent.notify user.TelegramUserID (alertText alert price)], rfl,
          by simp [SessionEvent.inLoop]⟩
      | some err =>
        exact ⟨[SessionEvent.notify user.TelegramUserID (alertText alert price),
          SessionEvent.log "failed to send alert"], by simp [Session.emit],
          by simp [SessionEvent.inLoop]⟩
    · exact ⟨[], by simp, by simp⟩

theorem evalAlerts_inLoop (env : SessionEnv) (user : User) (change : PriceChange)
    (rules : List alertEval) (s : Session) :
    ∃ added, (rules.foldl (evalAlert env user change) s).trace = s.trace ++ added ∧
      ∀ e ∈ added, e.inLoop = true := by
  induction rules generalizing s with
  | nil => exact ⟨[], by simp, by simp⟩
  | cons alert rest ih =>
    obtain ⟨a1, h1, h2⟩ := evalAlert_inLoop env user change s alert
    obtain ⟨a2, h3, h4⟩ := ih (evalAlert env user change s alert)
    refine ⟨a1 ++ a2, by rw [List.foldl_cons, h3, h1, List.append_assoc], ?_⟩
    intro e he
    rcases List.mem_append.1 he with h | h
    · exact h2 e h
    · exact h4 e h

theorem evalMessage_inLoop (env : SessionEnv) (user : User) (table : RuleTable)
    (msg : PriceChangeMessage) (s : Session) :
    ∃ added, (evalMessage env user table s msg).trace = s.trace ++ added ∧
      ∀ e ∈ added, e.inLoop = true := by
  unfold evalMessage
  generalize msg.PriceChanges = changes
  induction changes generalizing s with
  | nil => exact ⟨[], by simp, by simp⟩
  | cons change rest ih =>
    have hstep : ∃ added, (evalChange env user table s change).trace = s.trace ++ added ∧
        ∀ e ∈ added, e.inLoop = true := by
      unfold evalChange
      cases table.get change.AssetID with
      | none => exact ⟨[], by simp, by simp⟩
      | some rules => exact evalAlerts_inLoop env user change rules s
    obtain ⟨a1, h1, h2⟩ := hstep
    obtain ⟨a2, h3, h4⟩ := ih (evalChange env user table s change)
    refine ⟨a1 ++ a2, by rw [List.foldl_cons, h3, h1, List.append_assoc], ?_⟩
    intro e he
    rcases List.mem_append.1 he with h | h
    · exact h2 e h
    · exact h4 e h

theorem receiveLoop_inLoop (env : SessionEnv) (user : User) (table : RuleTable)
    (ticks : List Tick) (s : Session) :
    ∃ added, (receiveLoop env user table ticks s).1.trace = s.trace ++ added ∧
      ∀ e ∈ added, e.inLoop = true := by
  induction ticks generalizing s with
  | nil => exact ⟨[], by simp [receiveLoop], by simp⟩
  | cons tick rest ih =>
    cases tick with
    | done => exact ⟨[], by simp [receiveLoop], by simp⟩
    | receiveErr e =>
      exact ⟨[SessionEvent.receive, SessionEvent.log "websocket receive error"],
        by simp [receiveLoop, Session.emit], by simp [SessionEvent.inLoop]⟩
    | received msg =>
      cases msg with
      | none =>
        obtain ⟨a, h1, h2⟩ := ih (s.emit SessionEvent.receive)
        refine ⟨SessionEvent.receive :: a,
          by simp only [receiveLoop]; rw [h1]; simp [Session.emit], ?_⟩
        intro e he
        rcases List.mem_cons.1 he with h | h
        · subst h; rfl
        · exact h2 e h
      | some msg =>
        simp only [receiveLoop]
        split
        · obtain ⟨a, h1, h2⟩ := ih (s.emit SessionEvent.receive)
          refine ⟨SessionEvent.receive :: a, by rw [h1]; simp [Session.emit], ?_⟩
          intro e he
          rcases List.mem_cons.1 he with h | h
          · subst h; rfl
          · exact h2 e h
        · obtain ⟨a0, h0, h00⟩ := evalMessage_inLoop env user table msg (s.emit SessionEvent.receive)
          obtain ⟨a, h1, h2⟩ := ih (evalMessage env user table (s.emit SessionEvent.receive) msg)
          refine ⟨SessionEvent.receive :: (a0 ++ a), by rw [h1, h0]; simp [Session.emit], ?_⟩
          intro e he
          rcases List.mem_cons.1 he with h | h
          · subst h; rfl
          · rcases List.mem_append.1 h with h | h
            · exact h00 e h
            · exact h2 e h

theorem subscriptions_inLoop (added : List SessionEvent) (h : ∀ e ∈ added, e.inLoop = true) :
    subscriptions added = [] := by
  induction added with
  | nil => rfl
  | cons e rest ih =>
    have he := h e (List.mem_cons_self _ _)
    have hr := ih (fun e1 h1 => h e1 (List.mem_cons_of_mem _ h1))
    cases e <;> simp_all [subscriptions, SessionEvent.inLoop]

theorem count_connect_inLoop (added : List SessionEvent) (h : ∀ e ∈ added, e.inLoop = true) :
    added.count SessionEvent.connect = 0 := by
  rw [List.count_eq_zero]
  intro hmem
  have := h _ hmem
  simp [SessionEvent.inLoop] at this

theorem receiveLoop_append (env : SessionEnv) (user : User) (table : RuleTable)
    (pre rest : List Tick) (s : Session) (hpre : ∀ t ∈ pre, t.terminal = false) :
    receiveLoop env user table (pre ++ rest) s =
      receiveLoop env user table rest (receiveLoop env user table pre s).1 := by
  induction pre generalizing s with
  | nil => simp [receiveLoop]
  | cons tick more ih =>
    have hmore : ∀ t ∈ more, t.terminal = false := fun t ht => hpre t (List.mem_cons_of_mem _ ht)
    have htick := hpre tick (List.mem_cons_self _ _)
    cases tick with
    | done => simp [Tick.terminal] at htick
    | receiveErr e => simp [Tick.terminal] at htick
    | received msg =>
      cases msg with
      | none =>
        simp only [List.cons_append, receiveLoop]
        exact ih _ hmore
      | some msg =>
        simp only [List.cons_append, receiveLoop]
        split
        · exact ih _ hmore
        · exact ih _ hmore

/-- The notifier calls of a session, in terms of its rule table. -/
theorem runUser_notifications (env : SessionEnv) (user : User) (alerts : List Alert) :
    notifications (runUser env user alerts).trace =
      if (buildRules alerts).1 = [] ∨ env.connectErr.isSome = true ∨
          env.subscribeErr.isSome = true then []
      else loopNotifications user (buildRules alerts).1 env.ticks := by
  have hlogs : notifications (buildRules alerts).2 = [] := by
    rw [(buildRules_table alerts).2.2]
    exact notifications_logs _
  unfold runUser
  simp only [List.length_map]
  by_cases ht : (buildRules alerts).1 = []
  · simp [ht, hlogs]
  · have hlen : ¬ (buildRules alerts).1.length = 0 := by
      simpa [List.length_eq_zero] using ht
    rw [if_neg hlen]
    cases hc : env.connectErr with
    | some err => simp [ht, notifications_append, hlogs, notifications]
    | none =>
      cases hs : env.subscribeErr with
      | some err => simp [ht, notifications_append, hlogs, notifications]
      | none =>
        simp only [ht, Option.isSome_none, Bool.false_eq_true, or_self, if_false]
        split
        · rw [notifications_append, receiveLoop_notifications]
          simp [notifications_append, hlogs, notifications]
        · rw [receiveLoop_notifications]
          simp [notifications_append, hlogs, notifications]

/-- Whether a session has returned. -/
theorem runUser_returned (env : SessionEnv) (user : User) (alerts : List Alert) :
    (runUser env user alerts).returned =
      if (buildRules alerts).1 = [] ∨ env.connectErr.isSome = true ∨
          env.subscribeErr.isSome = true then true
      else env.ticks.any Tick.terminal := by
  unfold runUser
  simp only [List.length_map]
  by_cases ht : (buildRules alerts).1 = []
  · simp [ht]
  · have hlen : ¬ (buildRules alerts).1.length = 0 := by
      simpa [List.length_eq_zero] using ht
    rw [if_neg hlen]
    cases hc : env.connectErr with
    | some err => simp [ht]
    | none =>
      cases hs : env.subscribeErr with
      | some err => simp [ht]
      | none =>
        simp only [ht, Option.isSome_none, Bool.false_eq_true, or_self, if_false]
        exact receiveLoop_returned env user _ env.ticks _

/-! ## Theorems: session claims -/

theorem runUser_subscriptions (env : SessionEnv) (user : User) (alerts : List Alert) :
    subscriptions (runUser env user alerts).trace =
      if (buildRules alerts).1 = [] ∨ env.connectErr.isSome = true then []
      else [(buildRules alerts).1.map Prod.fst] := by
  have hlogs : subscriptions (buildRules alerts).2 = [] := by
    rw [(buildRules_table alerts).2.2]
    exact subscriptions_logs _
  unfold runUser
  simp only [List.length_map]
  by_cases ht : (buildRules alerts).1 = []
  · simp [ht, hlogs]
  · have hlen : ¬ (buildRules alerts).1.length = 0 := by
      simpa [List.length_eq_zero] using ht
    rw [if_neg hlen]
    cases hc : env.connectErr with
    | some err => simp [ht, subscriptions_append, hlogs, subscriptions]
    | none =>
      cases hs : env.subscribeErr with
      | some err => simp [ht, subscriptions_append, hlogs, subscriptions]
      | none =>
        obtain ⟨added, h1, h2⟩ := receiveLoop_inLoop env user (buildRules alerts).1 env.ticks
          ⟨(buildRules alerts).2 ++ [SessionEvent.connect,
            SessionEvent.subscribe ((buildRules alerts).1.map (fun kv => kv.1))], 0⟩
        have h3 := subscriptions_inLoop added h2
        simp only [ht, Option.isSome_none, Bool.false_eq_true, or_self, if_false]
        split
        · rw [h1]
          simp [subscriptions_append, hlogs, subscriptions, h3]
        · rw [h1]
          simp [subscriptions_append, hlogs, subscriptions, h3]

theorem buildRules_mem_keys (alerts : List Alert) (assetID : String) :
    assetID ∈ (buildRules alerts).1.map Prod.fst ↔
      ∃ a ∈ alerts, a.AssetID = assetID ∧ (NewFromString a.Threshold).isSome = true := by
  obtain ⟨_, hget, _⟩ := buildRules_table alerts
  rw [RuleTable.mem_keys_iff, hget assetID]
  constructor
  · intro h
    by_cases hr : rulesFor alerts assetID = []
    · simp [hr] at h
    · obtain ⟨rule, hrule⟩ := List.exists_mem_of_ne_nil _ hr
      unfold rulesFor at hrule
      rw [List.mem_filterMap] at hrule
      obtain ⟨a, ha, hmap⟩ := hrule
      rw [List.mem_filter] at ha
      refine ⟨a, ha.1, by simpa using ha.2, ?_⟩
      cases hp : NewFromString a.Threshold with
      | none => simp [hp] at hmap
      | some t => rfl
  · rintro ⟨a, ha, hk, hp⟩
    have hne : rulesFor alerts assetID ≠ [] := by
      obtain ⟨t, ht⟩ := Option.isSome_iff_exists.1 hp
      have hmem : ruleOf a t ∈ rulesFor alerts assetID := by
        unfold rulesFor
        rw [List.mem_filterMap]
        exact ⟨a, List.mem_filter.2 ⟨ha, by simpa using hk⟩, by simp [ht]⟩
      exact List.ne_nil_of_mem hmem
    simp [hne]

/-- C16: the rule table built by the session holds under each asset
identifier exactly the alerts with that identifier whose threshold parses, in
input order, with alert id, market, outcome and comparator copied (an asset
identifier with no such alert has no entry, so an unparsable threshold drops
only that alert); each key occurs once; and a session that reaches
`Subscribe` issues one request, which lists the keys of the table. -/
theorem buildRules_groups_by_asset (alerts : List Alert) :
    (∀ assetID, (buildRules alerts).1.get assetID =
      if rulesFor alerts assetID = [] then none else some (rulesFor alerts assetID)) ∧
    ((buildRules alerts).1.map Prod.fst).Nodup ∧
    (∀ assetID, assetID ∈ (buildRules alerts).1.map Prod.fst ↔
      ∃ a ∈ alerts, a.AssetID = assetID ∧ (NewFromString a.Threshold).isSome = true) ∧
    (∀ (env : SessionEnv) (user : User), subscriptions (runUser env user alerts).trace =
      if (buildRules alerts).1 = [] ∨ env.connectErr.isSome = true then []
      else [(buildRules alerts).1.map Prod.fst]) := by
  obtain ⟨hwf, hget, _⟩ := buildRules_table alerts
  exact ⟨hget, hwf.1, buildRules_mem_keys alerts,
    fun env user => runUser_subscriptions env user alerts⟩

/-- C17: when no threshold of the alerts parses as a decimal (in particular
for the empty list) the session returns having recorded one warning per alert
and nothing else: no `Connect`, `Subscribe`, `Receive` or notifier call. -/
theorem runUser_without_rules (env : SessionEnv) (user : User) (alerts : List Alert)
    (h : ∀ a ∈ alerts, NewFromString a.Threshold = none) :
    runUser env user alerts =
      ⟨alerts.map (fun _ => SessionEvent.log "invalid threshold on alert"), true⟩ := by
  obtain ⟨_, hget, hlogs⟩ := buildRules_table alerts
  have hfilter : alerts.filter (fun a => (NewFromString a.Threshold).isNone) = alerts := by
    rw [List.filter_eq_self]
    intro a ha
    simp [h a ha]
  have hkeys : (buildRules alerts).1 = [] := by
    cases ht : (buildRules alerts).1 with
    | nil => rfl
    | cons kv rest =>
      exfalso
      have hmem : kv.1 ∈ (buildRules alerts).1.map Prod.fst := by simp [ht]
      obtain ⟨a, ha, _, hp⟩ := (buildRules_mem_keys alerts kv.1).1 hmem
      simp [h a ha] at hp
  unfold runUser
  simp [hkeys, hlogs, hfilter]

/-- A witness of C17: one alert whose threshold is not a number. -/
theorem runUser_without_rules_witness :
    runUser (scenarioEnv "0.20") scenarioUser [⟨7, 1, "m", "c", "YES", "A", "<=", "abc", true⟩] =
      ⟨[SessionEvent.log "invalid threshold on alert"], true⟩ :=
  runUser_without_rules (scenarioEnv "0.20") scenarioUser
    [⟨7, 1, "m", "c", "YES", "A", "<=", "abc", true⟩]
    (by
      intro a ha
      have : a = ⟨7, 1, "m", "c", "YES", "A", "<=", "abc", true⟩ := by simpa using ha
      subst this
      decide)

theorem loopNotifications_filter (user : User) (table : RuleTable) (ticks : List Tick) :
    loopNotifications user table (ticks.filter (fun t => !t.ignored)) =
      loopNotifications user table ticks := by
  induction ticks with
  | nil => rfl
  | cons tick rest ih =>
    rw [List.filter_cons]
    cases tick with
    | done => rw [if_pos (by rfl)]; rfl
    | receiveErr e => rw [if_pos (by rfl)]; rfl
    | received msg =>
      cases msg with
      | none =>
        rw [if_neg (by simp [Tick.ignored]), ih]
        rfl
      | some msg =>
        by_cases h : msg.EventType = "price_change"
        · rw [if_pos (by simp [Tick.ignored, h])]
          simp only [loopNotifications, ih]
        · rw [if_neg (by simp [Tick.ignored, h]), ih]
          simp only [loopNotifications, ne_eq, h, not_false_eq_true, if_true]

theorem any_terminal_filter (ticks : List Tick) :
    (ticks.filter (fun t => !t.ignored)).any Tick.terminal = ticks.any Tick.terminal := by
  induction ticks with
  | nil => rfl
  | cons tick rest ih =>
    rw [List.filter_cons]
    cases tick with
    | done => rw [if_pos (by rfl)]; simp [Tick.terminal]
    | receiveErr e => rw [if_pos (by rfl)]; simp [Tick.terminal]
    | received msg =>
      cases msg with
      | none =>
        rw [if_neg (by simp [Tick.ignored]), ih]
        simp [Tick.terminal]
      | some msg =>
        by_cases h : msg.EventType = "price_change"
        · rw [if_pos (by simp [Tick.ignored, h]), List.any_cons, List.any_cons, ih]
        · rw [if_neg (by simp [Tick.ignored, h]), ih]
          simp [Tick.terminal]

/-- C18: a received result that is a `nil` message or a message whose event
type is not `price_change` only records the `Receive` call, and the loop goes
on with the next turn; so the notifier calls of a session, and whether it has
returned, are the same as if those results had never been received: the
price-change messages after them are evaluated as usual. -/
theorem runUser_skips_ignored (env : SessionEnv) (user : User) :
    (∀ (table : RuleTable) (tick : Tick) (rest : List Tick) (s : Session),
      tick.ignored = true →
      receiveLoop env user table (tick :: rest) s =
        receiveLoop env user table rest (s.emit SessionEvent.receive)) ∧
    (∀ (alerts : List Alert) (ticks : List Tick),
      notifications (runUser { env with ticks := ticks } user alerts).trace =
        notifications (runUser { env with ticks := ticks.filter (fun t => !t.ignored) }
          user alerts).trace ∧
      (runUser { env with ticks := ticks } user alerts).returned =
        (runUser { env with ticks := ticks.filter (fun t => !t.ignored) }
          user alerts).returned) := by
  constructor
  · intro table tick rest s h
    cases tick with
    | done => simp [Tick.ignored] at h
    | receiveErr e => simp [Tick.ignored] at h
    | received msg =>
      cases msg with
      | none => simp [receiveLoop]
      | some msg =>
        have hne : msg.EventType ≠ "price_change" := by simpa [Tick.ignored] using h
        simp [receiveLoop, hne]
  · intro alerts ticks
    constructor
    · rw [runUser_notifications, runUser_notifications]
      simp only [loopNotifications_filter]
    · rw [runUser_returned, runUser_returned]
      simp only [any_terminal_filter]

/-- A witness of C18: a `nil` result and a message of event type `book` are
received before the price-change message of the scenario, which still makes
the session notify. -/
theorem runUser_skips_ignored_witness :
    receiveLoop (scenarioFeed []) scenarioUser [] [Tick.received none] ⟨[], 0⟩ =
        receiveLoop (scenarioFeed []) scenarioUser [] [] ⟨[SessionEvent.receive], 0⟩ ∧
      notifications (runUser (scenarioFeed [Tick.received none,
          Tick.received (some ⟨"book", [scenarioChange "0.20"]⟩), scenarioTick "0.20"])
        scenarioUser [scenarioAlert]).trace =
        [(42, "Alert #7 triggered: m YES <= 0.23 (price 0.2)")] :=
  ⟨(runUser_skips_ignored (scenarioFeed []) scenarioUser).1 [] (Tick.received none) []
      ⟨[], 0⟩ rfl,
    ((runUser_skips_ignored (scenarioFeed []) scenarioUser).2 [scenarioAlert]
      [Tick.received none, Tick.received (some ⟨"book", [scenarioChange "0.20"]⟩),
        scenarioTick "0.20"]).1.trans (by decide)⟩

theorem evalAlert_congr (env env1 : SessionEnv) (h : env.notifyErr = env1.notifyErr)
    (user : User) : evalAlert env user = evalAlert env1 user := by
  funext change s alert
  unfold evalAlert
  rw [h]

theorem evalMessage_congr (env env1 : SessionEnv) (h : env.notifyErr = env1.notifyErr)
    (user : User) (table : RuleTable) :
    evalMessage env user table = evalMessage env1 user table := by
  funext s msg
  unfold evalMessage evalChange
  rw [evalAlert_congr env env1 h user]

theorem receiveLoop_congr (env env1 : SessionEnv) (h : env.notifyErr = env1.notifyErr)
    (user : User) (table : RuleTable) (ticks : List Tick) (s : Session) :
    receiveLoop env user table ticks s = receiveLoop env1 user table ticks s := by
  induction ticks generalizing s with
  | nil => rfl
  | cons tick rest ih =>
    cases tick with
    | done => rfl
    | receiveErr e => rfl
    | received msg =>
      cases msg with
      | none => simp only [receiveLoop, ih]
      | some msg => simp only [receiveLoop, ih, evalMessage_congr env env1 h user table]

/-- A session that has rules, connects and subscribes is its receive loop. -/
theorem runUser_connected (env : SessionEnv) (user : User) (alerts : List Alert)
    (hrules : (buildRules alerts).1 ≠ []) (hconn : env.connectErr = none)
    (hsub : env.subscribeErr = none) :
    runUser env user alerts =
      ⟨if (receiveLoop env user (buildRules alerts).1 env.ticks
            ⟨(buildRules alerts).2 ++ [SessionEvent.connect,
              SessionEvent.subscribe ((buildRules alerts).1.map (fun kv => kv.1))], 0⟩).2
        then (receiveLoop env user (buildRules alerts).1 env.ticks
            ⟨(buildRules alerts).2 ++ [SessionEvent.connect,
              SessionEvent.subscribe ((buildRules alerts).1.map (fun kv => kv.1))], 0⟩).1.trace
            ++ [SessionEvent.close]
        else (receiveLoop env user (buildRules alerts).1 env.ticks
            ⟨(buildRules alerts).2 ++ [SessionEvent.connect,
              SessionEvent.subscribe ((buildRules alerts).1.map (fun kv => kv.1))], 0⟩).1.trace,
       (receiveLoop env user (buildRules alerts).1 env.ticks
            ⟨(buildRules alerts).2 ++ [SessionEvent.connect,
              SessionEvent.subscribe ((buildRules alerts).1.map (fun kv => kv.1))], 0⟩).2⟩ := by
  have hlen : ¬ ((buildRules alerts).1.map (fun kv => kv.1)).length = 0 := by
    simpa [List.length_eq_zero] using hrules
  unfold runUser
  simp only [hconn, hsub]
  rw [if_neg hlen]

/-- C19: a session that has connected and subscribed terminates at the first
receive error: it returns, what it did is what it had done on the results
before the error followed by the failed `Receive`, the error log entry and the
closing of the connection, so nothing that follows the error is received or
notified; the notifier calls are those made before the error; and `Connect`
was called exactly once. -/
theorem runUser_stops_at_receive_error (env : SessionEnv) (user : User) (alerts : List Alert)
    (pre post : List Tick) (err : Err)
    (hrules : (buildRules alerts).1 ≠ []) (hconn : env.connectErr = none)
    (hsub : env.subscribeErr = none) (hpre : ∀ t ∈ pre, t.terminal = false)
    (hticks : env.ticks = pre ++ Tick.receiveErr err :: post) :
    (runUser env user alerts).returned = true ∧
    (runUser env user alerts).trace =
      (runUser { env with ticks := pre } user alerts).trace ++
        [SessionEvent.receive, SessionEvent.log "websocket receive error",
          SessionEvent.close] ∧
    (runUser { env with ticks := pre } user alerts).returned = false ∧
    notifications (runUser env user alerts).trace =
      notifications (runUser { env with ticks := pre } user alerts).trace ∧
    (runUser env user alerts).trace.count SessionEvent.connect = 1 := by
  have hanypre : pre.any Tick.terminal = false := by
    rw [List.any_eq_false]
    intro t ht
    simp [hpre t ht]
  have hloop : ∀ s, receiveLoop env user (buildRules alerts).1 env.ticks s =
      (((receiveLoop env user (buildRules alerts).1 pre s).1.emit SessionEvent.receive).emit
        (SessionEvent.log "websocket receive error"), true) := by
    intro s
    rw [hticks, receiveLoop_append env user _ pre _ s hpre]
    simp [receiveLoop]
  have hsame : ∀ s, receiveLoop { env with ticks := pre } user (buildRules alerts).1 pre s =
      receiveLoop env user (buildRules alerts).1 pre s :=
    fun s => receiveLoop_congr { env with ticks := pre } env rfl user _ pre s
  have hpreRet : ∀ s, (receiveLoop env user (buildRules alerts).1 pre s).2 = false := by
    intro s
    rw [receiveLoop_returned, hanypre]
  have hfull := runUser_connected env user alerts hrules hconn hsub
  have hpart := runUser_connected { env with ticks := pre } user alerts hrules hconn hsub
  simp only [hsame, hpreRet, Bool.false_eq_true, if_false] at hpart
  simp only [hloop, if_true, Session.emit] at hfull
  have htrace : (runUser env user alerts).trace =
      (runUser { env with ticks := pre } user alerts).trace ++
        [SessionEvent.receive, SessionEvent.log "websocket receive error",
          SessionEvent.close] := by
    rw [hfull, hpart]
    simp
  refine ⟨by rw [hfull], htrace, by rw [hpart], ?_, ?_⟩
  · rw [htrace]
    simp [notifications_append, notifications]
  · rw [htrace, hpart]
    obtain ⟨added, h1, h2⟩ := receiveLoop_inLoop env user (buildRules alerts).1 pre
      ⟨(buildRules alerts).2 ++ [SessionEvent.connect,
        SessionEvent.subscribe ((buildRules alerts).1.map (fun kv => kv.1))], 0⟩
    have hlogs : (buildRules alerts).2.count SessionEvent.connect = 0 := by
      rw [(buildRules_table alerts).2.2, List.count_eq_zero]
      simp
    simp only [h1]
    simp [List.count_append, count_connect_inLoop added h2, hlogs, List.count_cons]

/-- A witness of C19: the price-change message of the scenario, then a
receive error, then a second price-change message that is never received. -/
theorem runUser_stops_at_receive_error_witness :
    (runUser (scenarioFeed ([scenarioTick "0.20"] ++
        Tick.receiveErr (Err.other "closed") :: [scenarioTick "0.10"]))
      scenarioUser [scenarioAlert]).trace =
      [SessionEvent.connect, SessionEvent.subscribe ["A"], SessionEvent.receive,
        SessionEvent.notify 42 "Alert #7 triggered: m YES <= 0.23 (price 0.2)",
        SessionEvent.receive, SessionEvent.log "websocket receive error",
        SessionEvent.close] :=
  (runUser_stops_at_receive_error
    (scenarioFeed ([scenarioTick "0.20"] ++
        Tick.receiveErr (Err.other "closed") :: [scenarioTick "0.10"]))
    scenarioUser [scenarioAlert] [scenarioTick "0.20"] [scenarioTick "0.10"]
    (Err.other "closed") (by decide) rfl rfl (by decide) rfl).2.1

/-- C20: the notifier calls of a session (recipients and texts, in order) and
whether it has returned do not depend on which notifier calls fail: a failed
call is logged and the evaluation goes on as after a successful one, for a
single price-change message as for the whole session. -/
theorem notifications_ignore_notifier_errors (env : SessionEnv) (user : User)
    (failsA failsB : Nat → Option Err) :
    (∀ (table : RuleTable) (s : Session) (msg : PriceChangeMessage),
      notifications (evalMessage { env with notifyErr := failsA } user table s msg).trace =
        notifications (evalMessage { env with notifyErr := failsB } user table s msg).trace) ∧
    (∀ alerts : List Alert,
      notifications (runUser { env with notifyErr := failsA } user alerts).trace =
        notifications (runUser { env with notifyErr := failsB } user alerts).trace ∧
      (runUser { env with notifyErr := failsA } user alerts).returned =
        (runUser { env with notifyErr := failsB } user alerts).returned) := by
  constructor
  · intro table s msg
    rw [evalMessage_notifications, evalMessage_notifications]
  · intro alerts
    constructor
    · rw [runUser_notifications, runUser_notifications]
    · rw [runUser_returned, runUser_returned]

/-! ## Theorems: two `RestartUser` calls at once -/

theorem RestartUser_eq_check_publish (w : World) (m : AlertingManager) (telegramUserID : Int) :
    m.RestartUser w telegramUserID =
      (m.restartUserCheck w telegramUserID).map (fun p => p.1.restartUserPublish p.2) := by
  unfold AlertingManager.RestartUser AlertingManager.restartUserCheck AlertingManager.startUser
  cases w.store.GetByTelegramID telegramUserID with
  | error err =>
    simp only
    split <;> rfl
  | ok user =>
    simp only
    cases w.store.ListEnabledByUser user.ID with
    | error e => rfl
    | ok alerts =>
      simp only
      split
      · rfl
      · cases AlertingManager.stopExisting w _ user.TelegramUserID <;> rfl

/-- C12 (failing run): `RestartUser` is its existence check followed by the
publication of the runner, and the lock is free between the two; when two
`RestartUser` calls for external id 42 run at once and both finish the check
before either publishes, each finds no runner registered, both publish, and
the table ends with runner 1 alone while runner 0 has been started, has not
been cancelled and is registered nowhere. Run one after the other, the same
two calls leave runner 1 as the only live session. -/
theorem racingRestarts_orphans_session :
    (∀ (w : World) (m : AlertingManager) (telegramUserID : Int),
      m.RestartUser w telegramUserID =
        (m.restartUserCheck w telegramUserID).map (fun p => p.1.restartUserPublish p.2)) ∧
    AlertingManager.new.racingRestarts alertWorld 42 42 = some restartedAtOnce ∧
    restartedAtOnce.get 42 = some 1 ∧
    liveRunners restartedAtOnce.trace 42 = [0, 1] ∧
    RegistryEvent.cancel 0 ∉ restartedAtOnce.trace ∧
    (AlertingManager.new.RestartUser alertWorld 42).bind
      (fun m => m.RestartUser alertWorld 42) = some restartedTwice ∧
    liveRunners restartedTwice.trace 42 = [1] :=
  ⟨RestartUser_eq_check_publish, by decide, by decide, by decide, by decide, by decide,
    by decide⟩

/-! ## Theorems: live sessions -/

theorem cancelled_append (a b : List RegistryEvent) :
    cancelled (a ++ b) = cancelled a ++ cancelled b := by
  induction a with
  | nil => rfl
  | cons e rest ih => cases e <;> simp [cancelled, ih]

theorem spawnedFor_append (tid : Int) (a b : List RegistryEvent) :
    spawnedFor tid (a ++ b) = spawnedFor tid a ++ spawnedFor tid b := by
  induction a with
  | nil => rfl
  | cons e rest ih =>
    cases e with
    | spawn r u al =>
      by_cases h : u.TelegramUserID = tid <;> simp [spawnedFor, h, ih]
    | _ => simp [spawnedFor, ih]

theorem mem_cancelled_iff (trace : List RegistryEvent) (r : Nat) :
    r ∈ cancelled trace ↔ RegistryEvent.cancel r ∈ trace := by
  induction trace with
  | nil => simp [cancelled]
  | cons e rest ih => cases e <;> simp [cancelled, ih]

theorem filter_lookup_none (l : List (Int × Nat)) (k : Int) (h : l.lookup k = none) :
    l.filter (fun kv => kv.1 ≠ k) = l := by
  induction l with
  | nil => rfl
  | cons kv rest ih =>
    obtain ⟨k1, v⟩ := kv
    rw [List.lookup_cons] at h
    by_cases hk : k = k1
    · subst hk
      simp at h
    · have hb : (k == k1) = false := by simpa using hk
      rw [hb] at h
      rw [List.filter_cons, if_pos (by simpa using fun h1 => hk h1.symm), ih h]

theorem StopUser_runners (w : World) (m : AlertingManager) (telegramUserID : Int) :
    (m.StopUser w telegramUserID).runners =
      m.runners.filter (fun kv => kv.1 ≠ telegramUserID) := by
  cases h : m.get telegramUserID with
  | none =>
    have hs : m.StopUser w telegramUserID = m := by
      simp only [AlertingManager.StopUser, AlertingManager.stopUserLocked, h]
    rw [hs, filter_lookup_none m.runners telegramUserID h]
  | some runner =>
    rw [StopUser_of_some w m telegramUserID runner h, awaitStopped_runners]

/-- The cancellations and session starts that `StopUser` records. -/
theorem StopUser_observed (w : World) (m : AlertingManager) (telegramUserID : Int) :
    cancelled (m.StopUser w telegramUserID).trace =
      cancelled m.trace ++ (m.get telegramUserID).toList ∧
    (∀ tid, spawnedFor tid (m.StopUser w telegramUserID).trace = spawnedFor tid m.trace) ∧
    (m.StopUser w telegramUserID).nextRunner = m.nextRunner := by
  cases h : m.get telegramUserID with
  | none =>
    have hs : m.StopUser w telegramUserID = m := by
      simp only [AlertingManager.StopUser, AlertingManager.stopUserLocked, h]
    rw [hs]
    simp
  | some runner =>
    rw [StopUser_of_some w m telegramUserID runner h, awaitStopped_trace,
      awaitStopped_nextRunner]
    refine ⟨?_, ?_, rfl⟩
    · split <;> simp [cancelled_append, cancelled]
    · intro tid
      split <;> simp [spawnedFor_append, spawnedFor]

theorem liveRunners_subset (trace : List RegistryEvent) (tid : Int) (r : Nat)
    (h : r ∈ liveRunners trace tid) : r ∈ spawnedFor tid trace :=
  (List.mem_filter.1 h).1

/-- A call that leaves the table, the runner counter, the cancellations and
the session starts as they were keeps the registry consistent. -/
theorem Consistent.of_same (m m1 : AlertingManager) (h : Consistent m)
    (hr : m1.runners = m.runners) (hn : m1.nextRunner = m.nextRunner)
    (hc : cancelled m1.trace = cancelled m.trace)
    (hs : ∀ tid, spawnedFor tid m1.trace = spawnedFor tid m.trace) : Consistent m1 := by
  obtain ⟨h1, h2, h3, h4⟩ := h
  refine ⟨?_, ?_, ?_, ?_⟩
  · intro tid
    unfold liveRunners AlertingManager.get
    rw [hs, hc, hr]
    exact h1 tid
  · rw [hc, hn]
    exact h2
  · intro tid
    rw [hs, hn]
    exact h3 tid
  · intro t1 t2 r
    rw [hs, hs]
    exact h4 t1 t2 r

/-- Removing the entry of a user and cancelling its runner (or doing nothing
when there is no entry) keeps the registry consistent. -/
theorem Consistent.retire (m m1 : AlertingManager) (tid : Int) (h : Consistent m)
    (hr : m1.runners = m.runners.filter (fun kv => kv.1 ≠ tid))
    (hn : m1.nextRunner = m.nextRunner)
    (hc : cancelled m1.trace = cancelled m.trace ++ (m.get tid).toList)
    (hs : ∀ t, spawnedFor t m1.trace = spawnedFor t m.trace) : Consistent m1 := by
  obtain ⟨h1, h2, h3, h4⟩ := h
  have hentry : ∀ t r, m.get t = some r → r ∈ spawnedFor t m.trace := by
    intro t r hg
    apply liveRunners_subset
    rw [h1 t, hg]
    simp
  have hm1 : ∀ t, m1.get t = if t = tid then none else m.get t := by
    intro t
    unfold AlertingManager.get
    rw [hr]
    by_cases ht : t = tid
    · subst ht
      rw [lookup_filter_self, if_pos rfl]
    · rw [lookup_filter_other _ _ _ ht, if_neg ht]
  refine ⟨?_, ?_, ?_, ?_⟩
  · intro t
    have hlive : liveRunners m1.trace t =
        (liveRunners m.trace t).filter (fun r => r ∉ (m.get tid).toList) := by
      unfold liveRunners
      rw [hs, hc, List.filter_filter]
      apply List.filter_congr
      intro r _
      simp [not_or, Bool.and_comm]
    rw [hlive, h1 t, hm1 t]
    by_cases ht : t = tid
    · subst ht
      rw [if_pos rfl]
      cases hg : m.get t <;> simp
    · rw [if_neg ht]
      cases hg : m.get t with
      | none => simp
      | some r1 =>
        cases hg2 : m.get tid with
        | none => simp
        | some r =>
          have hne : r1 ≠ r := by
            intro heq
            subst heq
            exact ht (h4 t tid r1 (hentry t r1 hg) (hentry tid r1 hg2))
          simp [hne]
  · intro r hr2
    rw [hc, List.mem_append] at hr2
    rw [hn]
    rcases hr2 with h5 | h5
    · exact h2 r h5
    · cases hg : m.get tid with
      | none => simp [hg] at h5
      | some r0 =>
        simp only [hg, Option.toList_some, List.mem_singleton] at h5
        subst h5
        exact h3 tid r (hentry tid r hg)
  · intro t r hr2
    rw [hs] at hr2
    rw [hn]
    exact h3 t r hr2
  · intro t1 t2 r
    rw [hs, hs]
    exact h4 t1 t2 r

theorem Consistent.StopUser (w : World) (m : AlertingManager) (tid : Int)
    (h : Consistent m) : Consistent (m.StopUser w tid) := by
  obtain ⟨hc, hs, hn⟩ := StopUser_observed w m tid
  exact Consistent.retire m _ tid h (StopUser_runners w m tid) hn hc hs

theorem Consistent.stopUsers (w : World) (ids : List Int) (m : AlertingManager)
    (h : Consistent m) : Consistent (ids.foldl (AlertingManager.StopUser w) m) := by
  induction ids generalizing m with
  | nil => exact h
  | cons tid rest ih => exact ih _ (Consistent.StopUser w m tid h)

/-- Writing a fresh runner into the table for a user that has no entry, and
starting its session, keeps the registry consistent. -/
theorem Consistent.publish (m m1 : AlertingManager) (tid : Int) (h : Consistent m)
    (hnone : m.get tid = none)
    (hr : m1.runners = (tid, m.nextRunner) :: m.runners)
    (hn : m1.nextRunner = m.nextRunner + 1)
    (hc : cancelled m1.trace = cancelled m.trace)
    (hs : ∀ t, spawnedFor t m1.trace =
      spawnedFor t m.trace ++ (if t = tid then [m.nextRunner] else [])) : Consistent m1 := by
  obtain ⟨h1, h2, h3, h4⟩ := h
  have hfresh : m.nextRunner ∉ cancelled m.trace := fun hmem => Nat.lt_irrefl _ (h2 _ hmem)
  have hm1 : ∀ t, m1.get t = if t = tid then some m.nextRunner else m.get t := by
    intro t
    unfold AlertingManager.get
    rw [hr, List.lookup_cons]
    by_cases ht : t = tid
    · subst ht
      simp
    · have hb : (t == tid) = false := by simpa using ht
      rw [hb, if_neg ht]
  refine ⟨?_, ?_, ?_, ?_⟩
  · intro t
    unfold liveRunners
    rw [hs, hc, List.filter_append, hm1 t]
    have hl := h1 t
    unfold liveRunners at hl
    rw [hl]
    by_cases ht : t = tid
    · subst ht
      simp [hnone, hfresh]
    · simp [ht]
  · intro r hmem
    rw [hc] at hmem
    rw [hn]
    exact Nat.lt_succ_of_lt (h2 r hmem)
  · intro t r hmem
    rw [hs, List.mem_append] at hmem
    rw [hn]
    rcases hmem with h5 | h5
    · exact Nat.lt_succ_of_lt (h3 t r h5)
    · split at h5
      · simp only [List.mem_singleton] at h5
        omega
      · simp at h5
  · intro t1 t2 r hm1 hm2
    rw [hs, List.mem_append] at hm1 hm2
    rcases hm1 with h5 | h5
    · rcases hm2 with h6 | h6
      · exact h4 t1 t2 r h5 h6
      · split at h6
        · simp only [List.mem_singleton] at h6
          have := h3 t1 r h5
          omega
        · simp at h6
    · split at h5
      · rename_i ht1
        simp only [List.mem_singleton] at h5
        rcases hm2 with h6 | h6
        · have := h3 t2 r h6
          omega
        · split at h6
          · rename_i ht2
            rw [ht1, ht2]
          · simp at h6
      · simp at h5

theorem stopExisting_observed (w : World) (m m2 : AlertingManager) (tid : Int)
    (h : AlertingManager.stopExisting w m tid = some m2) :
    m2.runners = m.runners ∧ m2.nextRunner = m.nextRunner ∧
    cancelled m2.trace = cancelled m.trace ++ (m.get tid).toList ∧
    (∀ t, spawnedFor t m2.trace = spawnedFor t m.trace) := by
  unfold AlertingManager.stopExisting at h
  cases hg : m.get tid with
  | none =>
    rw [hg] at h
    simp only [Option.some.injEq] at h
    subst h
    simp
  | some existing =>
    rw [hg] at h
    simp only at h
    cases hc : w.completion existing with
    | never => simp [hc] at h
    | inTime =>
      simp only [hc, Option.some.injEq] at h
      subst h
      simp [AlertingManager.emit, cancelled_append, cancelled, spawnedFor_append, spawnedFor]
    | late =>
      simp only [hc, Option.some.injEq] at h
      subst h
      simp [AlertingManager.emit, cancelled_append, cancelled, spawnedFor_append, spawnedFor]

theorem Consistent.startUser (w : World) (m m1 : AlertingManager) (user : User)
    (h : Consistent m) (hstart : m.startUser w user = some m1) : Consistent m1 := by
  unfold AlertingManager.startUser at hstart
  have hm0 : Consistent ((m.emit (RegistryEvent.startUser user)).emit
      (RegistryEvent.listEnabledByUser user.ID)) :=
    Consistent.of_same m _ h rfl rfl
      (by simp [AlertingManager.emit, cancelled_append, cancelled])
      (by intro t; simp [AlertingManager.emit, spawnedFor_append, spawnedFor])
  cases hl : w.store.ListEnabledByUser user.ID with
  | error e =>
    rw [hl] at hstart
    simp only [Option.some.injEq] at hstart
    subst hstart
    exact Consistent.of_same _ _ hm0 rfl rfl
      (by simp [AlertingManager.emit, cancelled_append, cancelled])
      (by intro t; simp [AlertingManager.emit, spawnedFor_append, spawnedFor])
  | ok alerts =>
    rw [hl] at hstart
    simp only at hstart
    split at hstart
    · simp only [Option.some.injEq] at hstart
      subst hstart
      exact hm0
    · cases hse : AlertingManager.stopExisting w ((m.emit (RegistryEvent.startUser user)).emit
          (RegistryEvent.listEnabledByUser user.ID)) user.TelegramUserID with
      | none => simp [hse] at hstart
      | some m2 =>
        rw [hse] at hstart
        simp only [Option.map_some', Option.some.injEq] at hstart
        subst hstart
        obtain ⟨hr, hn, hc, hs⟩ := stopExisting_observed w _ m2 user.TelegramUserID hse
        have hmid : Consistent
            { runners := m2.runners.filter (fun kv => kv.1 ≠ user.TelegramUserID)
              nextRunner := m2.nextRunner
              trace := m2.trace } :=
          Consistent.retire _ _ user.TelegramUserID hm0 (by rw [hr]) hn hc hs
        refine Consistent.publish _ _ user.TelegramUserID hmid ?_ rfl rfl ?_ ?_
        · exact lookup_filter_self m2.runners user.TelegramUserID
        · simp [AlertingManager.publishRunner, cancelled_append, cancelled]
        · intro t
          by_cases ht : t = user.TelegramUserID
          · subst ht
            simp [AlertingManager.publishRunner, spawnedFor_append, spawnedFor]
          · have ht2 : ¬ user.TelegramUserID = t := fun h1 => ht h1.symm
            simp [AlertingManager.publishRunner, spawnedFor_append, spawnedFor, ht, ht2]

theorem Consistent.startAllLoop (w : World) (userIDs : List Nat) (m m1 : AlertingManager)
    (h : Consistent m) (hloop : AlertingManager.startAllLoop w userIDs m = some m1) :
    Consistent m1 := by
  induction userIDs generalizing m with
  | nil =>
    simp only [AlertingManager.startAllLoop, Option.some.injEq] at hloop
    subst hloop
    exact h
  | cons userID rest ih =>
    unfold AlertingManager.startAllLoop at hloop
    have hm0 : Consistent (m.emit (RegistryEvent.getByID userID)) :=
      Consistent.of_same m _ h rfl rfl
        (by simp [AlertingManager.emit, cancelled_append, cancelled])
        (by intro t; simp [AlertingManager.emit, spawnedFor_append, spawnedFor])
    cases hg : w.store.GetByID userID with
    | error err =>
      rw [hg] at hloop
      simp only at hloop
      split at hloop
      · exact ih _ hm0 hloop
      · refine ih _ ?_ hloop
        exact Consistent.of_same _ _ hm0 rfl rfl
          (by simp [AlertingManager.emit, cancelled_append, cancelled])
          (by intro t; simp [AlertingManager.emit, spawnedFor_append, spawnedFor])
    | ok user =>
      rw [hg] at hloop
      simp only at hloop
      cases hs : (m.emit (RegistryEvent.getByID userID)).startUser w user with
      | none => simp [hs] at hloop
      | some m2 =>
        rw [hs] at hloop
        exact ih m2 (Consistent.startUser w _ m2 user hm0 hs) hloop

theorem Consistent.StartAll (w : World) (m m1 : AlertingManager) (err : Option Err)
    (h : Consistent m) (hstart : m.StartAll w = some (m1, err)) : Consistent m1 := by
  unfold AlertingManager.StartAll at hstart
  have hm0 : Consistent (m.emit RegistryEvent.listUserIDs) :=
    Consistent.of_same m _ h rfl rfl
      (by simp [AlertingManager.emit, cancelled_append, cancelled])
      (by intro t; simp [AlertingManager.emit, spawnedFor_append, spawnedFor])
  cases hl : w.store.ListUserIDsWithEnabledAlerts with
  | error e =>
    rw [hl] at hstart
    simp only [Option.some.injEq, Prod.mk.injEq] at hstart
    rw [← hstart.1]
    exact hm0
  | ok userIDs =>
    rw [hl] at hstart
    simp only at hstart
    cases hloop : AlertingManager.startAllLoop w userIDs (m.emit RegistryEvent.listUserIDs) with
    | none => simp [hloop] at hstart
    | some m2 =>
      rw [hloop] at hstart
      simp only [Option.map_some', Option.some.injEq, Prod.mk.injEq] at hstart
      rw [← hstart.1]
      exact Consistent.startAllLoop w userIDs _ m2 hm0 hloop

theorem Consistent.RestartUser (w : World) (m m1 : AlertingManager) (tid : Int)
    (h : Consistent m) (hre : m.RestartUser w tid = some m1) : Consistent m1 := by
  unfold AlertingManager.RestartUser at hre
  have hm0 : Consistent ((m.StopUser w tid).emit (RegistryEvent.getByTelegramID tid)) :=
    Consistent.of_same _ _ (Consistent.StopUser w m tid h) rfl rfl
      (by simp [AlertingManager.emit, cancelled_append, cancelled])
      (by intro t; simp [AlertingManager.emit, spawnedFor_append, spawnedFor])
  cases hg : w.store.GetByTelegramID tid with
  | error err =>
    rw [hg] at hre
    simp only at hre
    split at hre
    · simp only [Option.some.injEq] at hre
      subst hre
      exact Consistent.of_same _ _ hm0 rfl rfl
        (by simp [AlertingManager.emit, cancelled_append, cancelled])
        (by intro t; simp [AlertingManager.emit, spawnedFor_append, spawnedFor])
    · simp only [Option.some.injEq] at hre
      subst hre
      exact hm0
  | ok user =>
    rw [hg] at hre
    exact Consistent.startUser w _ m1 user hm0 hre

theorem Consistent.new : Consistent AlertingManager.new := by
  refine ⟨?_, ?_, ?_, ?_⟩ <;>
    simp [AlertingManager.new, liveRunners, spawnedFor, cancelled, AlertingManager.get]

theorem Reachable.consistent (m : AlertingManager) (h : Reachable m) : Consistent m := by
  induction h with
  | empty => exact Consistent.new
  | startAll w m m1 err _ hs ih => exact Consistent.StartAll w m m1 err ih hs
  | restartUser w m m1 tid _ hs ih => exact Consistent.RestartUser w m m1 tid ih hs
  | stopUser w m tid _ ih => exact Consistent.StopUser w m tid ih
  | stopAll w m ids _ _ ih => exact Consistent.stopUsers w ids m ih

/-- C11: in every state reached from the empty registry by `StartAll`,
`RestartUser`, `StopUser` and `StopAll` calls that run one at a time, the
sessions of a user that have been started and not yet cancelled are exactly
the runner held in the user's entry of the runners table: none when there is
no entry, otherwise that one runner. -/
theorem Reachable.one_live_session (m : AlertingManager) (h : Reachable m) (tid : Int) :
    liveRunners m.trace tid = (m.get tid).toList ∧ (liveRunners m.trace tid).length ≤ 1 := by
  have h1 := (Reachable.consistent m h).1 tid
  refine ⟨h1, ?_⟩
  rw [h1]
  cases m.get tid <;> simp

/-- A witness of C11: two `RestartUser 42` calls, one after the other. -/
theorem Reachable.one_live_session_witness :
    liveRunners restartedTwice.trace 42 = [1] ∧
      (liveRunners restartedTwice.trace 42).length ≤ 1 :=
  Reachable.one_live_session restartedTwice
    (Reachable.restartUser alertWorld restartedOnce restartedTwice 42
      (Reachable.restartUser alertWorld AlertingManager.new restartedOnce 42
        Reachable.empty (by decide))
      (by decide))
    42

theorem stopUsers_effect (w : World) (ids : List Int) (m : AlertingManager) :
    (ids.foldl (AlertingManager.StopUser w) m).runners =
      m.runners.filter (fun kv => kv.1 ∉ ids) ∧
    ∃ added, (ids.foldl (AlertingManager.StopUser w) m).trace = m.trace ++ added ∧
      ∀ tid ∈ ids, ∀ r, m.get tid = some r → RegistryEvent.cancel r ∈ added := by
  induction ids generalizing m with
  | nil => exact ⟨by simp, [], by simp, by simp⟩
  | cons id rest ih =>
    obtain ⟨hr, added2, ht2, hc2⟩ := ih (m.StopUser w id)
    obtain ⟨added1, ht1, _, _, hc1, _, _⟩ := StopUser_effect w m id
    rw [List.foldl_cons]
    refine ⟨?_, added1 ++ added2, by rw [ht2, ht1, List.append_assoc], ?_⟩
    · rw [hr, StopUser_runners, List.filter_filter]
      apply List.filter_congr
      intro kv _
      simp [not_or, Bool.and_comm]
    · intro tid htid r hg
      by_cases h : tid = id
      · subst h
        exact List.mem_append_left _ (hc1 r hg)
      · have hrest : tid ∈ rest := by
          rcases List.mem_cons.1 htid with h1 | h1
          · exact absurd h1 h
          · exact h1
        have hg2 : (m.StopUser w id).get tid = some r := by
          unfold AlertingManager.get
          rw [StopUser_runners, lookup_filter_other _ _ _ h]
          exact hg
        exact List.mem_append_right _ (hc2 tid hrest r hg2)

theorem mem_keys_of_lookup (l : List (Int × Nat)) (k : Int) (r : Nat)
    (h : l.lookup k = some r) : k ∈ l.map Prod.fst := by
  induction l with
  | nil => simp at h
  | cons kv rest ih =>
    obtain ⟨k1, v⟩ := kv
    rw [List.lookup_cons] at h
    by_cases hk : k = k1
    · subst hk
      simp
    · have hb : (k == k1) = false := by simpa using hk
      rw [hb] at h
      exact List.mem_cons_of_mem _ (ih h)

/-- Stopping every key of the table, in any order, empties the table and
cancels every registered runner. -/
theorem stopUsers_all (w : World) (m : AlertingManager) (ids : List Int)
    (hids : ∀ k ∈ m.runners.map Prod.fst, k ∈ ids) :
    (ids.foldl (AlertingManager.StopUser w) m).runners = [] ∧
    ∃ added, (ids.foldl (AlertingManager.StopUser w) m).trace = m.trace ++ added ∧
      ∀ tid r, m.get tid = some r → RegistryEvent.cancel r ∈ added := by
  obtain ⟨hr, added, ht, hc⟩ := stopUsers_effect w ids m
  refine ⟨?_, added, ht, ?_⟩
  · rw [hr, List.filter_eq_nil_iff]
    intro kv hkv
    have : kv.1 ∈ ids := hids kv.1 (List.mem_map_of_mem Prod.fst hkv)
    simpa using this
  · intro tid r hg
    exact hc tid (hids tid (mem_keys_of_lookup m.runners tid r hg)) r hg

/-- C13: after `StopAll` the runners table is empty and every runner that was
registered when it was called has had its cancellation signalled during the
call; this holds for the order in which the table lists the keys and for any
other order in which the snapshot of the keys may be taken. -/
theorem StopAll_stops_everything (w : World) (m : AlertingManager) :
    ((m.StopAll w).runners = [] ∧
      ∃ added, (m.StopAll w).trace = m.trace ++ added ∧
        ∀ tid r, m.get tid = some r → RegistryEvent.cancel r ∈ added) ∧
    (∀ ids : List Int, ids.Perm (m.runners.map Prod.fst) →
      (ids.foldl (AlertingManager.StopUser w) m).runners = [] ∧
      ∃ added, (ids.foldl (AlertingManager.StopUser w) m).trace = m.trace ++ added ∧
        ∀ tid r, m.get tid = some r → RegistryEvent.cancel r ∈ added) :=
  ⟨stopUsers_all w m _ (fun _ hk => hk),
    fun ids hperm => stopUsers_all w m ids (fun _ hk => (hperm.mem_iff).2 hk)⟩

/-- A witness of C13: runners 0 and 1 are registered for 42 and 43, and the
keys are taken in the order 43, 42. -/
theorem StopAll_stops_everything_witness :
    ([43, 42].foldl (AlertingManager.StopUser quietWorld) busyManager).runners = [] ∧
      ∃ added, ([43, 42].foldl (AlertingManager.StopUser quietWorld) busyManager).trace =
          busyManager.trace ++ added ∧
        ∀ tid r, busyManager.get tid = some r → RegistryEvent.cancel r ∈ added :=
  (StopAll_stops_everything quietWorld busyManager).2 [43, 42] (by decide)

/-! ## Theorems: the order of a start -/

theorem sessionMoments_append (env : SessionEnv) (a b : List RegistryEvent) :
    sessionMoments env (a ++ b) = sessionMoments env a ++ sessionMoments env b := by
  induction a with
  | nil => rfl
  | cons e rest ih => cases e <;> simp [sessionMoments, ih]

theorem stopExisting_trace (w : World) (m m2 : AlertingManager) (tid : Int)
    (h : AlertingManager.stopExisting w m tid = some m2) :
    ∃ mid, m2.trace = m.trace ++ mid ∧ m2.nextRunner = m.nextRunner ∧
      (∀ env, sessionMoments env mid = []) ∧ (∀ k r, RegistryEvent.publish k r ∉ mid) := by
  unfold AlertingManager.stopExisting at h
  cases hg : m.get tid with
  | none =>
    rw [hg] at h
    simp only [Option.some.injEq] at h
    subst h
    exact ⟨[], by simp, rfl, fun _ => rfl, by simp⟩
  | some existing =>
    rw [hg] at h
    simp only at h
    cases hc : w.completion existing with
    | never => simp [hc] at h
    | inTime =>
      simp only [hc, Option.some.injEq] at h
      subst h
      exact ⟨[RegistryEvent.log "alerting runner already active",
        RegistryEvent.cancel existing, RegistryEvent.waitDone existing],
        by simp [AlertingManager.emit], rfl, fun _ => rfl, by simp⟩
    | late =>
      simp only [hc, Option.some.injEq] at h
      subst h
      exact ⟨[RegistryEvent.log "alerting runner already active",
        RegistryEvent.cancel existing, RegistryEvent.waitDone existing],
        by simp [AlertingManager.emit], rfl, fun _ => rfl, by simp⟩

/-- The counterexample of C15 as stated: in the start of the scenario's user
the runner entry is written before the session connects the feed, not after. -/
theorem startUser_publishes_before_connect :
    AlertingManager.new.startUserTimeline alertWorld (scenarioFeed [scenarioTick "0.20"])
        scenarioUser =
      some [Moment.registry (RegistryEvent.startUser scenarioUser),
        Moment.registry (RegistryEvent.listEnabledByUser 1),
        Moment.registry (RegistryEvent.publish 42 0),
        Moment.registry (RegistryEvent.spawn 0 scenarioUser [scenarioAlert]),
        Moment.session 0 SessionEvent.connect,
        Moment.session 0 (SessionEvent.subscribe ["A"]),
        Moment.session 0 SessionEvent.receive,
        Moment.session 0
          (SessionEvent.notify 42 "Alert #7 triggered: m YES <= 0.23 (price 0.2)")] ∧
    (AlertingManager.new.startUserTimeline alertWorld (scenarioFeed [scenarioTick "0.20"])
        scenarioUser).map
      (fun timeline =>
        (precedes (Moment.session 0 SessionEvent.connect)
            (Moment.registry (RegistryEvent.publish 42 0)) timeline,
          precedes (Moment.registry (RegistryEvent.publish 42 0))
            (Moment.session 0 SessionEvent.connect) timeline)) =
      some (false, true) := by
  decide

/-- C15 (amended): in a per-user start that publishes a runner, the user's
enabled alerts are loaded before the new runner entry is written to the
runners table; the entry is written before the session is started, and all
the session does, connecting the feed included, comes after the entry is
written. -/
theorem startUser_loads_publishes_connects (w : World) (env : SessionEnv)
    (m m1 : AlertingManager) (user : User) (alerts : List Alert)
    (hl : w.store.ListEnabledByUser user.ID = Except.ok alerts) (hne : alerts ≠ [])
    (hstart : m.startUser w user = some m1) :
    ∃ mid : List RegistryEvent,
      m.startUserTimeline w env user = some (
        [Moment.registry (RegistryEvent.startUser user),
          Moment.registry (RegistryEvent.listEnabledByUser user.ID)] ++
        mid.map Moment.registry ++
        [Moment.registry (RegistryEvent.publish user.TelegramUserID m.nextRunner),
          Moment.registry (RegistryEvent.spawn m.nextRunner user alerts)] ++
        (runUser env user alerts).trace.map (Moment.session m.nextRunner)) ∧
      (∀ k r, RegistryEvent.publish k r ∉ mid) := by
  have hlen : ¬ alerts.length = 0 := by simpa [List.length_eq_zero] using hne
  unfold AlertingManager.startUserTimeline
  rw [hstart]
  unfold AlertingManager.startUser at hstart
  rw [hl] at hstart
  simp only [if_neg hlen] at hstart
  cases hse : AlertingManager.stopExisting w ((m.emit (RegistryEvent.startUser user)).emit
      (RegistryEvent.listEnabledByUser user.ID)) user.TelegramUserID with
  | none => simp [hse] at hstart
  | some m2 =>
    rw [hse] at hstart
    simp only [Option.map_some', Option.some.injEq] at hstart
    obtain ⟨mid, htrace, hnext, hsess, hpub⟩ := stopExisting_trace w _ m2 _ hse
    refine ⟨mid, ?_, hpub⟩
    have hm1 : m1.trace = m.trace ++ ([RegistryEvent.startUser user,
        RegistryEvent.listEnabledByUser user.ID] ++ mid ++
        [RegistryEvent.publish user.TelegramUserID m.nextRunner,
          RegistryEvent.spawn m.nextRunner user alerts]) := by
      rw [← hstart]
      simp only [AlertingManager.publishRunner, htrace, hnext, AlertingManager.emit]
      simp
    have hdrop : m1.trace.drop m.trace.length = [RegistryEvent.startUser user,
        RegistryEvent.listEnabledByUser user.ID] ++ mid ++
        [RegistryEvent.publish user.TelegramUserID m.nextRunner,
          RegistryEvent.spawn m.nextRunner user alerts] := by
      rw [hm1, List.drop_left]
    simp only [Option.map_some', hdrop, sessionMoments_append, hsess]
    simp [sessionMoments]

/-- A witness of C15 (amended): the start of the scenario's user. -/
theorem startUser_loads_publishes_connects_witness :
    ∃ mid : List RegistryEvent,
      AlertingManager.new.startUserTimeline alertWorld (scenarioFeed [scenarioTick "0.20"])
          scenarioUser = some (
        [Moment.registry (RegistryEvent.startUser scenarioUser),
          Moment.registry (RegistryEvent.listEnabledByUser scenarioUser.ID)] ++
        mid.map Moment.registry ++
        [Moment.registry (RegistryEvent.publish scenarioUser.TelegramUserID
            AlertingManager.new.nextRunner),
          Moment.registry (RegistryEvent.spawn AlertingManager.new.nextRunner scenarioUser
            [scenarioAlert])] ++
        (runUser (scenarioFeed [scenarioTick "0.20"]) scenarioUser [scenarioAlert]).trace.map
          (Moment.session AlertingManager.new.nextRunner)) ∧
      (∀ k r, RegistryEvent.publish k r ∉ mid) :=
  startUser_loads_publishes_connects alertWorld (scenarioFeed [scenarioTick "0.20"])
    AlertingManager.new
    ⟨[(42, 0)], 1, [RegistryEvent.startUser scenarioUser, RegistryEvent.listEnabledByUser 1,
      RegistryEvent.publish 42 0, RegistryEvent.spawn 0 scenarioUser [scenarioAlert]]⟩
    scenarioUser [scenarioAlert] rfl (by decide) (by decide)

/-! ## Theorems: `normalizeComparator` -/

/-- C14: `normalizeComparator` returns `<=` exactly when the trimmed input is
`<` or `<=`, returns `>=` exactly when it is `>` or `>=`, and fails with
`ErrInvalidComparator` exactly otherwise; a successful result is `<=` or `>=`
and `normalizeComparator` maps it to itself. -/
theorem normalizeComparator_spec (input : String) :
    (normalizeComparator input = Except.ok "<=" ↔
      TrimSpace input = "<" ∨ TrimSpace input = "<=") ∧
    (normalizeComparator input = Except.ok ">=" ↔
      TrimSpace input = ">" ∨ TrimSpace input = ">=") ∧
    (normalizeComparator input = Except.error UsecaseError.ErrInvalidComparator ↔
      ¬ (TrimSpace input = "<" ∨ TrimSpace input = "<=" ∨
        TrimSpace input = ">" ∨ TrimSpace input = ">=")) ∧
    (∀ out, normalizeComparator input = Except.ok out →
      (out = "<=" ∨ out = ">=") ∧ normalizeComparator out = Except.ok out) := by
  have hle : normalizeComparator "<=" = Except.ok "<=" := by decide
  have hge : normalizeComparator ">=" = Except.ok ">=" := by decide
  have h1 : ("<=" : String) ≠ ">=" := by decide
  have h2 : ("<=" : String) ≠ ">" := by decide
  have h3 : ("<" : String) ≠ ">=" := by decide
  have h4 : ("<" : String) ≠ ">" := by decide
  unfold normalizeComparator
  simp only
  by_cases ha : TrimSpace input = "<=" ∨ TrimSpace input = "<"
  · rw [if_pos ha]
    refine ⟨?_, ?_, ?_, ?_⟩
    · simp only [true_iff]
      tauto
    · rcases ha with h | h <;> simp [h, h1, h2, h3, h4]
    · simp only [reduceCtorEq, false_iff, not_not]
      tauto
    · intro out hout
      cases hout
      exact ⟨Or.inl rfl, hle⟩
  · rw [if_neg ha]
    by_cases hb : TrimSpace input = ">=" ∨ TrimSpace input = ">"
    · rw [if_pos hb]
      refine ⟨?_, ?_, ?_, ?_⟩
      · have : ¬ ((Except.ok ">=" : Except UsecaseError String) = Except.ok "<=") := by
          decide
        simp only [this, false_iff]
        tauto
      · simp only [true_iff]
        tauto
      · simp only [reduceCtorEq, false_iff, not_not]
        tauto
      · intro out hout
        cases hout
        exact ⟨Or.inr rfl, hge⟩
    · rw [if_neg hb]
      refine ⟨?_, ?_, ?_, ?_⟩
      · simp only [reduceCtorEq, false_iff]
        tauto
      · simp only [reduceCtorEq, false_iff]
        tauto
      · simp only [true_iff]
        tauto
      · intro out hout
        cases hout

/-- A witness of C14: `<` between spaces and a tab is normalized to `<=`,
which is a fixed point. -/
theorem normalizeComparator_spec_witness :
    normalizeComparator " <\t " = Except.ok "<=" ∧
      ((("<=" : String) = "<=" ∨ ("<=" : String) = ">=") ∧
        normalizeComparator "<=" = Except.ok "<=") :=
  ⟨(normalizeComparator_spec " <\t ").1.2 (by decide),
    (normalizeComparator_spec " <\t ").2.2.2 "<=" (by decide)⟩

/-! ## Theorems: one evaluation per change and rule -/

/-- The counterexample of C21 as stated: one price-change message that carries
two changes for asset `A`, both with best-ask `0.20`, makes the session of the
scenario evaluate its one rule twice and call the notifier twice. -/
theorem runUser_notifies_twice_for_one_message :
    notifications (runUser (scenarioFeed [Tick.received (some ⟨"price_change",
        [scenarioChange "0.20", scenarioChange "0.20"]⟩)]) scenarioUser
        [scenarioAlert]).trace =
      [(42, "Alert #7 triggered: m YES <= 0.23 (price 0.2)"),
        (42, "Alert #7 triggered: m YES <= 0.23 (price 0.2)")] := by
  decide

theorem alertNotification_length (user : User) (change : PriceChange) (alert : alertEval) :
    (alertNotification user change alert).length ≤ 1 := by
  unfold alertNotification
  cases selectPrice alert.Comparator change with
  | none => simp
  | some price =>
    simp only
    split <;> simp

theorem changeNotifications_length (user : User) (table : RuleTable) (change : PriceChange) :
    (changeNotifications user table change).length ≤
      ((table.get change.AssetID).getD []).length := by
  unfold changeNotifications
  cases table.get change.AssetID with
  | none => simp
  | some rules =>
    simp only [Option.getD_some]
    induction rules with
    | nil => simp
    | cons alert rest ih =>
      have h := alertNotification_length user change alert
      simp only [List.foldr_cons, List.length_append, List.length_cons]
      omega

theorem messageNotifications_length (user : User) (table : RuleTable)
    (changes : List PriceChange) :
    (changes.foldr (fun change acc => changeNotifications user table change ++ acc) []).length ≤
      (changes.map (fun change => ((table.get change.AssetID).getD []).length)).sum := by
  induction changes with
  | nil => simp
  | cons change rest ih =>
    have h := changeNotifications_length user table change
    simp only [List.foldr_cons, List.length_append, List.map_cons, List.sum_cons]
    omega

theorem foldr_append_eq_flatten {α β : Type} (f : α → List β) (l : List α) :
    l.foldr (fun a acc => f a ++ acc) [] = (l.map f).flatten := by
  induction l with
  | nil => rfl
  | cons a rest ih => simp [ih]

/-- C21 (amended): for every received message, the notifier calls the session
makes are, change by change in message order and, within a change, rule by
rule in the order of the rules registered under the change's asset
identifier, the call of that rule for that change, if it triggers: the rule is
evaluated exactly once for each such change and gives at most one call for it
(the call to the user's external id with the rule's text when a price is
selected and triggers, none otherwise). So a rule is notified at most once
per change, and more than once for a message only through several changes
for its asset. -/
theorem evalMessage_once_per_change_and_rule (env : SessionEnv) (user : User)
    (table : RuleTable) (s : Session) :
    (∀ (change : PriceChange) (alert : alertEval),
      notifications (evalAlert env user change s alert).trace =
        notifications s.trace ++ alertNotification user change alert) ∧
    (∀ (change : PriceChange) (alert : alertEval),
      alertNotification user change alert =
        (match selectPrice alert.Comparator change with
          | none => []
          | some price =>
            if shouldNotify alert.Comparator price alert.Threshold then
              [(user.TelegramUserID, alertText alert price)]
            else []) ∧
      (alertNotification user change alert).length ≤ 1) ∧
    (∀ change : PriceChange,
      notifications (evalChange env user table s change).trace =
        notifications s.trace ++
          (((table.get change.AssetID).getD []).map (alertNotification user change)).flatten) ∧
    (∀ msg : PriceChangeMessage,
      notifications (evalMessage env user table s msg).trace =
        notifications s.trace ++
          (msg.PriceChanges.map (fun change =>
            (((table.get change.AssetID).getD []).map
              (alertNotification user change)).flatten)).flatten) ∧
    (∀ (change : PriceChange) (alert : alertEval),
      (notifications (evalAlert env user change s alert).trace).length ≤
        (notifications s.trace).length + 1) ∧
    (∀ change : PriceChange,
      (notifications (evalChange env user table s change).trace).length ≤
        (notifications s.trace).length + ((table.get change.AssetID).getD []).length) ∧
    (∀ msg : PriceChangeMessage,
      (notifications (evalMessage env user table s msg).trace).length ≤
        (notifications s.trace).length +
          (msg.PriceChanges.map
            (fun change => ((table.get change.AssetID).getD []).length)).sum) := by
  have hchange : ∀ change : PriceChange, changeNotifications user table change =
      (((table.get change.AssetID).getD []).map (alertNotification user change)).flatten := by
    intro change
    unfold changeNotifications
    cases table.get change.AssetID with
    | none => rfl
    | some rules => exact foldr_append_eq_flatten (alertNotification user change) rules
  refine ⟨?_, ?_, ?_, ?_, ?_, ?_, ?_⟩
  · intro change alert
    exact evalAlert_notifications env user change s alert
  · intro change alert
    exact ⟨rfl, alertNotification_length user change alert⟩
  · intro change
    rw [evalChange_notifications, hchange]
  · intro msg
    rw [evalMessage_notifications]
    unfold messageNotifications
    rw [foldr_append_eq_flatten (changeNotifications user table) msg.PriceChanges]
    have hfun : changeNotifications user table = fun change =>
        (((table.get change.AssetID).getD []).map (alertNotification user change)).flatten :=
      funext hchange
    rw [hfun]
  · intro change alert
    rw [evalAlert_notifications, List.length_append]
    have := alertNotification_length user change alert
    omega
  · intro change
    rw [evalChange_notifications, List.length_append]
    have := changeNotifications_length user table change
    omega
  · intro msg
    rw [evalMessage_notifications, List.length_append]
    have := messageNotifications_length user table msg.PriceChanges
    unfold messageNotifications
    omega

/-! ## Theorems: comparators other than `<=` -/

/-- C23: for every comparator string other than `<=`, `selectPrice` and
`shouldNotify` return what they return for `>=`: the best-bid when present,
else the last-trade price, and a trigger exactly when the price is at least
the threshold. -/
theorem other_comparators_as_ge (comparator : String) (h : comparator ≠ "<=") :
    (∀ change : PriceChange, selectPrice comparator change = selectPrice ">=" change) ∧
    (∀ price threshold : Decimal,
      shouldNotify comparator price threshold = shouldNotify ">=" price threshold) ∧
    (∀ (assetID : String) (bid : Decimal) (ask last : Option Decimal),
      selectPrice comparator ⟨assetID, some bid, ask, last⟩ = some bid) ∧
    (∀ (assetID : String) (ask last : Option Decimal),
      selectPrice comparator ⟨assetID, none, ask, last⟩ = last) ∧
    (∀ price threshold : Decimal,
      shouldNotify comparator price threshold = true ↔ threshold.toRat ≤ price.toRat) := by
  have hne : ¬ ((">=" : String) = "<=") := by decide
  refine ⟨?_, ?_, ?_, ?_, ?_⟩
  · intro change
    simp [selectPrice, h, hne]
  · intro price threshold
    simp [shouldNotify, h, hne]
  · intro assetID bid ask last
    simp [selectPrice, h]
  · intro assetID ask last
    cases last <;> simp [selectPrice, h]
  · intro price threshold
    rw [← shouldNotify_ge price threshold]
    simp [shouldNotify, h, hne]

/-- A witness of C23: the comparators `<` and the empty string. -/
theorem other_comparators_as_ge_witness :
    (selectPrice "<" ⟨"A", some ⟨5, -1⟩, some ⟨2, -1⟩, none⟩ = some ⟨5, -1⟩) ∧
      (∀ price threshold : Decimal,
        shouldNotify "" price threshold = true ↔ threshold.toRat ≤ price.toRat) :=
  ⟨(other_comparators_as_ge "<" (by decide)).2.2.1 "A" ⟨5, -1⟩ (some ⟨2, -1⟩) none,
    (other_comparators_as_ge "" (by decide)).2.2.2.2⟩

/-! ## Theorems: `mapOutcomeToAssetID` -/

/-- C22: for a market with at least two token identifiers and an outcome
that is `YES` or `NO` after trimming and upper-casing, `mapOutcomeToAssetID`
returns the first token for `YES` and the second for `NO`, with the
upper-cased outcome, whatever the outcome labels of the market are; it fails
exactly when the normalized outcome is neither `YES` nor `NO` or the market has
fewer than two token identifiers. -/
theorem mapOutcomeToAssetID_positional (upperRune : Char → Char) (market : MarketInfo)
    (outcome : String) :
    (∀ yesToken noToken more, market.ClobTokenIDs = yesToken :: noToken :: more →
      ToUpper upperRune (TrimSpace outcome) = "YES" →
      mapOutcomeToAssetID upperRune market outcome = Except.ok (yesToken, "YES")) ∧
    (∀ yesToken noToken more, market.ClobTokenIDs = yesToken :: noToken :: more →
      ToUpper upperRune (TrimSpace outcome) = "NO" →
      mapOutcomeToAssetID upperRune market outcome = Except.ok (noToken, "NO")) ∧
    ((∃ msg, mapOutcomeToAssetID upperRune market outcome = Except.error msg) ↔
      (ToUpper upperRune (TrimSpace outcome) ≠ "YES" ∧
        ToUpper upperRune (TrimSpace outcome) ≠ "NO") ∨
      market.ClobTokenIDs.length < 2) := by
  have hyn : ¬ (("NO" : String) = "YES") := by decide
  refine ⟨?_, ?_, ?_⟩
  · intro yesToken noToken more htok hyes
    unfold mapOutcomeToAssetID
    simp [hyes, htok]
  · intro yesToken noToken more htok hno
    unfold mapOutcomeToAssetID
    simp [hno, htok, hyn]
  · unfold mapOutcomeToAssetID
    simp only
    by_cases h1 : ToUpper upperRune (TrimSpace outcome) ≠ "YES" ∧
        ToUpper upperRune (TrimSpace outcome) ≠ "NO"
    · rw [if_pos h1]
      simp [h1]
    · rw [if_neg h1]
      by_cases h2 : market.ClobTokenIDs.length < 2
      · rw [if_pos h2]
        simp [h2]
      · rw [if_neg h2]
        have hno : ¬ ((ToUpper upperRune (TrimSpace outcome) ≠ "YES" ∧
            ToUpper upperRune (TrimSpace outcome) ≠ "NO") ∨
            market.ClobTokenIDs.length < 2) := by
          rintro (h | h)
          · exact h1 h
          · exact h2 h
        simp only [hno, iff_false, not_exists]
        intro msg
        split <;> split <;> simp

/-- A witness of C22: a market labelled `Up`, `Down` and the outcome `yes`
between spaces. -/
theorem mapOutcomeToAssetID_positional_witness :
    mapOutcomeToAssetID asciiUpper scenarioMarket " yes " = Except.ok ("tokenUp", "YES") :=
  (mapOutcomeToAssetID_positional asciiUpper scenarioMarket " yes ").1
    "tokenUp" "tokenDown" [] rfl (by decide)

/-! ## Theorems: `decodeMessage` -/

theorem mapPriceChange_changes (payload : wsMessage) :
    (mapPriceChange payload).PriceChanges = payload.PriceChanges.map mapChange := by
  unfold mapPriceChange
  simp only
  have h : ∀ (cs : List wsPriceChange) (acc : List PriceChange),
      cs.foldl (fun acc change => acc ++ [mapChange change]) acc = acc ++ cs.map mapChange := by
    intro cs
    induction cs with
    | nil => simp
    | cons c rest ih =>
      intro acc
      rw [List.foldl_cons, ih]
      simp
  rw [h]
  simp

theorem decodeArray_first (pre post : List wsMessage) (p : wsMessage)
    (hpre : ∀ q ∈ pre, q.EventType ≠ "price_change") (hp : p.EventType = "price_change") :
    decodeArray (pre ++ p :: post) = some (mapPriceChange p) := by
  induction pre with
  | nil => simp [decodeArray, hp]
  | cons q rest ih =>
    have hq := hpre q (List.mem_cons_self _ _)
    simp only [List.cons_append, decodeArray, ne_eq, hq, not_false_eq_true, if_true]
    exact ih (fun r hr => hpre r (List.mem_cons_of_mem _ hr))

theorem decodeArray_none (payloads : List wsMessage)
    (h : ∀ q ∈ payloads, q.EventType ≠ "price_change") : decodeArray payloads = none := by
  induction payloads with
  | nil => rfl
  | cons q rest ih =>
    have hq := h q (List.mem_cons_self _ _)
    simp only [decodeArray, ne_eq, hq, not_false_eq_true, if_true]
    exact ih (fun r hr => h r (List.mem_cons_of_mem _ hr))

/-- C25: for a payload whose trimmed text starts with `[` and decodes as an
array, `decodeMessage` returns the mapping of the first element whose event
type is `price_change`, whatever follows it, later `price_change` elements
included, and no message when no element is one; the mapped message has the
element's event type and its price changes in order, each with the asset
identifier copied and each optional price field present, with the payload's
value, exactly when the payload field is valid. -/
theorem decodeMessage_array_first_price_change (json : JSONDecoder) (data : String)
    (payloads : List wsMessage) (harray : (TrimSpace data).data.head? = some '[')
    (hjson : json.array (TrimSpace data) = some payloads) :
    decodeMessage json data = Except.ok (decodeArray payloads) ∧
    (∀ (pre post : List wsMessage) (p : wsMessage), payloads = pre ++ p :: post →
      (∀ q ∈ pre, q.EventType ≠ "price_change") → p.EventType = "price_change" →
      decodeMessage json data = Except.ok (some (mapPriceChange p))) ∧
    ((∀ q ∈ payloads, q.EventType ≠ "price_change") →
      decodeMessage json data = Except.ok none) ∧
    (∀ p : wsMessage, (mapPriceChange p).EventType = p.EventType ∧
      (mapPriceChange p).PriceChanges = p.PriceChanges.map mapChange) ∧
    (∀ c : wsPriceChange, (mapChange c).AssetID = c.AssetID ∧
      (mapChange c).BestBid = (if c.BestBid.Valid then some c.BestBid.Decimal else none) ∧
      (mapChange c).BestAsk = (if c.BestAsk.Valid then some c.BestAsk.Decimal else none) ∧
      (mapChange c).Price = (if c.Price.Valid then some c.Price.Decimal else none)) := by
  have hlen : ¬ (TrimSpace data).data.length = 0 := by
    intro h
    rw [List.length_eq_zero] at h
    rw [h] at harray
    simp at harray
  have hdec : decodeMessage json data = Except.ok (decodeArray payloads) := by
    unfold decodeMessage
    simp only [if_neg hlen, harray, if_true, hjson]
  refine ⟨hdec, ?_, ?_, ?_, ?_⟩
  · intro pre post p hpay hpre hp
    rw [hdec, hpay, decodeArray_first pre post p hpre hp]
  · intro hnone
    rw [hdec, decodeArray_none payloads hnone]
  · intro p
    exact ⟨rfl, mapPriceChange_changes p⟩
  · intro c
    exact ⟨rfl, rfl, rfl, rfl⟩

/-- A witness of C25: a `book` element, then a price change for `A`, then a
price change for `B` that is dropped. -/
theorem decodeMessage_array_first_price_change_witness :
    decodeMessage scenarioDecoder " [ ] " =
      Except.ok (some ⟨"price_change", [⟨"A", none, some ⟨20, -2⟩, none⟩]⟩) :=
  (decodeMessage_array_first_price_change scenarioDecoder " [ ] " scenarioPayloads
    (by decide) rfl).2.1 [⟨"book", []⟩]
    [⟨"price_change", [⟨"B", validDecimal 5 (-1), absentDecimal, absentDecimal⟩]⟩]
    ⟨"price_change", [⟨"A", absentDecimal, validDecimal 20 (-2), absentDecimal⟩]⟩
    rfl (by decide) rfl

/-! ## Theorems: the entry of a session that ends on its own -/

theorem publishRunner_get (m : AlertingManager) (user : User) (alerts : List Alert) (t : Int) :
    (m.publishRunner user alerts).get t =
      if t = user.TelegramUserID then some m.nextRunner else m.get t := by
  unfold AlertingManager.publishRunner AlertingManager.get
  simp only
  rw [List.lookup_cons]
  by_cases ht : t = user.TelegramUserID
  · subst ht
    simp
  · have hb : (t == user.TelegramUserID) = false := by simpa using ht
    rw [hb, if_neg ht]
    exact lookup_filter_other m.runners user.TelegramUserID t ht

theorem filter_key_filter_ne (l : List (Int × Nat)) (k : Int) :
    (l.filter (fun kv => kv.1 ≠ k)).filter (fun kv => kv.1 = k) = [] := by
  rw [List.filter_filter, List.filter_eq_nil_iff]
  intro kv _
  by_cases h : kv.1 = k <;> simp [h]

/-- What `startUser` leaves in the table when it publishes a runner. -/
theorem startUser_published (w : World) (m m1 : AlertingManager) (user : User)
    (alerts : List Alert) (hl : w.store.ListEnabledByUser user.ID = Except.ok alerts)
    (hne : alerts ≠ []) (hstart : m.startUser w user = some m1) :
    m1.runners.filter (fun kv => kv.1 = user.TelegramUserID) =
      [(user.TelegramUserID, m.nextRunner)] ∧
    m1.get user.TelegramUserID = some m.nextRunner ∧
    m1.nextRunner = m.nextRunner + 1 := by
  have hlen : ¬ alerts.length = 0 := by simpa [List.length_eq_zero] using hne
  unfold AlertingManager.startUser at hstart
  rw [hl] at hstart
  simp only [if_neg hlen] at hstart
  cases hse : AlertingManager.stopExisting w ((m.emit (RegistryEvent.startUser user)).emit
      (RegistryEvent.listEnabledByUser user.ID)) user.TelegramUserID with
  | none => simp [hse] at hstart
  | some m2 =>
    rw [hse] at hstart
    simp only [Option.map_some', Option.some.injEq] at hstart
    obtain ⟨_, hn, _, _⟩ := stopExisting_observed w _ m2 user.TelegramUserID hse
    have hn2 : m2.nextRunner = m.nextRunner := hn
    subst hstart
    refine ⟨?_, ?_, ?_⟩
    · simp only [AlertingManager.publishRunner]
      rw [List.filter_cons, if_pos (by simp), filter_key_filter_ne, hn2]
    · rw [publishRunner_get, if_pos rfl, hn2]
    · simp only [AlertingManager.publishRunner, hn2]

/-- The table after a `startUser` that returns: the entry of the started user
may be new, every other entry is as before. -/
theorem startUser_get (w : World) (m m1 : AlertingManager) (user : User)
    (hstart : m.startUser w user = some m1) (t : Int) :
    m1.get t = m.get t ∨ (t = user.TelegramUserID ∧ m1.get t = some m.nextRunner) := by
  unfold AlertingManager.startUser at hstart
  cases hl : w.store.ListEnabledByUser user.ID with
  | error e =>
    rw [hl] at hstart
    simp only [Option.some.injEq] at hstart
    subst hstart
    exact Or.inl rfl
  | ok alerts =>
    rw [hl] at hstart
    simp only at hstart
    split at hstart
    · simp only [Option.some.injEq] at hstart
      subst hstart
      exact Or.inl rfl
    · cases hse : AlertingManager.stopExisting w ((m.emit (RegistryEvent.startUser user)).emit
          (RegistryEvent.listEnabledByUser user.ID)) user.TelegramUserID with
      | none => simp [hse] at hstart
      | some m2 =>
        rw [hse] at hstart
        simp only [Option.map_some', Option.some.injEq] at hstart
        obtain ⟨hr, hn, _, _⟩ := stopExisting_observed w _ m2 user.TelegramUserID hse
        have hn2 : m2.nextRunner = m.nextRunner := hn
        have hg2 : m2.get t = m.get t := by
          unfold AlertingManager.get
          rw [hr]
          rfl
        subst hstart
        rw [publishRunner_get, hn2, hg2]
        by_cases ht : t = user.TelegramUserID
        · exact Or.inr ⟨ht, by rw [if_pos ht]⟩
        · exact Or.inl (by rw [if_neg ht])

theorem buildRules_nil_of_unparsable (alerts : List Alert)
    (h : ∀ a ∈ alerts, NewFromString a.Threshold = none) : (buildRules alerts).1 = [] := by
  cases ht : (buildRules alerts).1 with
  | nil => rfl
  | cons kv rest =>
    exfalso
    have hmem : kv.1 ∈ (buildRules alerts).1.map Prod.fst := by simp [ht]
    obtain ⟨a, ha, _, hp⟩ := (buildRules_mem_keys alerts kv.1).1 hmem
    simp [h a ha] at hp

/-- C24: a per-user start that publishes a runner (the user has enabled
alerts) leaves exactly one entry for the user in the runners table; running
the session does not change the registry, so the entry is still there when
the session has ended on its own because no threshold parses, the connection
or the subscription fails, or a receive error occurs; calls for other users
keep it; it goes only when `StopUser` for the user deletes it, or a
`RestartUser` or another start for the user deletes or replaces it. -/
theorem startUser_entry_stays (w : World) (m m1 : AlertingManager) (user : User)
    (alerts : List Alert) (hl : w.store.ListEnabledByUser user.ID = Except.ok alerts)
    (hne : alerts ≠ []) (hstart : m.startUser w user = some m1) :
    m1.runners.filter (fun kv => kv.1 = user.TelegramUserID) =
      [(user.TelegramUserID, m.nextRunner)] ∧
    m1.get user.TelegramUserID = some m.nextRunner ∧
    (∀ env : SessionEnv, (m1.runSession env user alerts).1 = m1) ∧
    (∀ env : SessionEnv,
      ((∀ a ∈ alerts, NewFromString a.Threshold = none) ∨ env.connectErr.isSome = true ∨
        env.subscribeErr.isSome = true ∨ ∃ err, Tick.receiveErr err ∈ env.ticks) →
      (m1.runSession env user alerts).2.returned = true ∧
      (m1.runSession env user alerts).1.get user.TelegramUserID = some m.nextRunner) ∧
    (∀ (w2 : World) (other : Int), other ≠ user.TelegramUserID →
      (m1.StopUser w2 other).get user.TelegramUserID = some m.nextRunner) ∧
    (∀ (w2 : World) (user2 : User) (m2 : AlertingManager),
      user2.TelegramUserID ≠ user.TelegramUserID → m1.startUser w2 user2 = some m2 →
      m2.get user.TelegramUserID = some m.nextRunner) ∧
    (∀ w2 : World, (m1.StopUser w2 user.TelegramUserID).get user.TelegramUserID = none) ∧
    (∀ (w2 : World) (m2 : AlertingManager),
      m1.RestartUser w2 user.TelegramUserID = some m2 →
      m2.get user.TelegramUserID ≠ some m.nextRunner) ∧
    (∀ (w2 : World) (alerts2 : List Alert) (m2 : AlertingManager),
      w2.store.ListEnabledByUser user.ID = Except.ok alerts2 → alerts2 ≠ [] →
      m1.startUser w2 user = some m2 →
      m2.get user.TelegramUserID = some (m.nextRunner + 1)) := by
  obtain ⟨hone, hget, hnext⟩ := startUser_published w m m1 user alerts hl hne hstart
  refine ⟨hone, hget, fun _ => rfl, ?_, ?_, ?_, ?_, ?_, ?_⟩
  · intro env hend
    refine ⟨?_, hget⟩
    show (runUser env user alerts).returned = true
    rw [runUser_returned]
    rcases hend with h | h | h | ⟨err, h⟩
    · simp [buildRules_nil_of_unparsable alerts h]
    · simp [h]
    · simp [h]
    · split
      · rfl
      · rw [List.any_eq_true]
        exact ⟨Tick.receiveErr err, h, rfl⟩
  · intro w2 other hother
    unfold AlertingManager.get
    rw [StopUser_runners, lookup_filter_other _ _ _ (fun h => hother h.symm)]
    exact hget
  · intro w2 user2 m2 hu hs
    rcases startUser_get w2 m1 m2 user2 hs user.TelegramUserID with h | ⟨h, _⟩
    · rw [h, hget]
    · exact absurd h.symm hu
  · intro w2
    obtain ⟨_, _, hnone, _⟩ := StopUser_effect w2 m1 user.TelegramUserID
    exact hnone
  · intro w2 m2 hre
    obtain ⟨_, _, hnone, hn, _⟩ := StopUser_effect w2 m1 user.TelegramUserID
    have hfresh : ∀ (mm : AlertingManager), mm.get user.TelegramUserID = none →
        mm.get user.TelegramUserID ≠ some m.nextRunner := by
      intro mm h1 h2
      rw [h1] at h2
      cases h2
    unfold AlertingManager.RestartUser at hre
    cases hg : w2.store.GetByTelegramID user.TelegramUserID with
    | error err =>
      rw [hg] at hre
      simp only at hre
      split at hre
      · simp only [Option.some.injEq] at hre
        subst hre
        exact hfresh _ hnone
      · simp only [Option.some.injEq] at hre
        subst hre
        exact hfresh _ hnone
    | ok user2 =>
      rw [hg] at hre
      simp only at hre
      rcases startUser_get w2 _ m2 user2 hre user.TelegramUserID with h | ⟨_, h⟩
      · rw [h]
        exact hfresh _ hnone
      · rw [h]
        have hn2 : ((m1.StopUser w2 user.TelegramUserID).emit
            (RegistryEvent.getByTelegramID user.TelegramUserID)).nextRunner =
            m.nextRunner + 1 := by
          show (m1.StopUser w2 user.TelegramUserID).nextRunner = m.nextRunner + 1
          rw [hn, hnext]
        rw [hn2]
        intro hcontra
        simp at hcontra
  · intro w2 alerts2 m2 hl2 hne2 hs
    obtain ⟨_, hget2, _⟩ := startUser_published w2 m1 m2 user alerts2 hl2 hne2 hs
    rw [hget2, hnext]

/-- A witness of C24: the start of the scenario's user from the empty
registry, with a feed whose connection fails. -/
theorem startUser_entry_stays_witness :
    (startedOnce.runSession failingFeed scenarioUser [scenarioAlert]).2.returned = true ∧
      (startedOnce.runSession failingFeed scenarioUser [scenarioAlert]).1.get 42 = some 0 :=
  (startUser_entry_stays alertWorld AlertingManager.new startedOnce scenarioUser
    [scenarioAlert] rfl (by decide) (by decide)).2.2.2.1 failingFeed (Or.inr (Or.inl rfl))
